import Mathlib

/-
Verification of the 3D laser-scanner Arduino firmware (firmware main sketch,
src/unnamed/part_010) against its natural-language specification.

Embedding conventions:
* C `int` variables are embedded as unbounded `Int` (the sources contain no
  build-target configuration fixing the machine width, and none of the checked
  properties is about overflow); C truncated division `/` and remainder `%` on
  `int` are embedded as `Int.tdiv` and `Int.tmod`.
* C `float` values (distances in cm, angles in degrees) are embedded as `ℚ`.
* Side effects are made explicit: `digitalWrite` calls become `Ev.pinWrite`
  events, `Serial` line output becomes `Ev.line` events, and the VL53L0X
  sensor is an environment `Env` mapping the index of each
  `readRangeContinuousMillimeters` call to the reading it returns.
* `delay`/`delayMicroseconds` calls have no observable effect here and are
  dropped; re-tests of `scanning`/`paused` inside loop bodies that no code in
  the body can change (the sketch is single-threaded and interrupt-free) are
  kept at loop heads and at the points where they write state, and dropped
  where they are provably no-ops.
-/

namespace LaserScanner

/-! ### Pin and configuration constants (part_010 lines 6-22) -/

def X_STEP_PIN : Nat := 2
def X_DIR_PIN : Nat := 5
def Z_STEP_PIN : Nat := 4
def Z_DIR_PIN : Nat := 7

def DEFAULT_STEPS_PER_REV : Int := 1600
def DEFAULT_THETA_STEPS_PER_REV : Int := 200
def DEFAULT_Z_STEPS_PER_MM : Int := 200
def DEFAULT_Z_TRAVEL_MM : Int := 200
def DEFAULT_Z_STEPS_PER_LAYER : Int := 400
def DEFAULT_SCAN_DELAY_MS : Int := 50
def MIN_THETA_STEPS_PER_REV : Int := 4
def MAX_THETA_STEPS_PER_REV : Int := 3600

/-! ### VL53L0X sensor reading (part_010 lines 98-107) -/

/-- One raw result of `sensor.readRangeContinuousMillimeters()` together with
the subsequent `sensor.timeoutOccurred()` answer. `raw` is the returned
`uint16_t` distance in millimetres. -/
structure SensorR where
  timeout : Bool
  raw : Nat
deriving Repr, DecidableEq

/-- Sensor environment: the reading produced by the k-th sensor read the
firmware performs. -/
structure Env where
  sensor : Nat → SensorR

/-- Embedding of `readVL53L0X()` (part_010 lines 98-107): returns 0.0 on
timeout, raw 0, or raw above 1200 mm, otherwise the raw millimetre value
divided by 10 (centimetres). -/
def readVL53L0X (r : SensorR) : ℚ :=
  if r.timeout then 0
  else if r.raw > 1200 ∨ r.raw = 0 then 0
  else (r.raw : ℚ) / 10

/-! ### Observable events -/

/-- Serial output lines of the sketch, one constructor per distinct
`Serial.print`/`println` message shape. -/
inductive OutLine where
  | scanStart
  | scanPaused
  | scanResumed
  | scanComplete
  | homeComplete
  | movingToTop
  | moveToTopComplete
  | resumingMovingToTop
  | errorNotStepMode
  | delim
  | point (layer step : Int) (dist angle : ℚ)
  | testDistance (dist : ℚ)
  | testPoint (angle dist : ℚ)
  | rotated (n : Int)
  | rotateError
  | rotatedZ (n : Int)
  | rotateZError
  | configOk (t zt zm zl d : Int) (c : ℚ) (spr : Int)
  | configErrorRange
  | configErrorExceeds
  | configErrorInvalid
  | currentConfig (t zt zm zl d : Int) (c : ℚ) (spr : Int)
  | lidarDistance (dist : ℚ)
deriving Repr, DecidableEq

/-- Observable events: a `digitalWrite(pin, level)` (HIGH = `true`) or one
serial output line. -/
inductive Ev where
  | pinWrite (pin : Nat) (high : Bool)
  | line (l : OutLine)
deriving Repr, DecidableEq

def linesOf (evs : List Ev) : List OutLine :=
  evs.filterMap fun e => match e with | .line l => some l | _ => none

def pinsOf (evs : List Ev) : List Nat :=
  evs.filterMap fun e => match e with | .pinWrite p _ => some p | _ => none

/-- The (layer, step) pairs of the point lines in a line list. -/
def pointPositions (ls : List OutLine) : List (Int × Int) :=
  ls.filterMap fun l => match l with | .point la st _ _ => some (la, st) | _ => none

/-! ### Firmware state (part_010 lines 24-40) -/

structure FwState where
  scanning : Bool
  paused : Bool
  scan_direction_up : Bool
  current_theta_step : Int
  paused_layer : Int
  paused_step : Int
  scan_current_layer : Int
  scan_current_step : Int
  step_by_step_mode : Bool
  theta_steps_per_rev : Int
  z_steps_per_mm : Int
  z_travel_mm : Int
  z_steps_per_layer : Int
  scan_delay_ms : Int
  center_distance_cm : ℚ
  steps_per_rev : Int
deriving Repr, DecidableEq

/-- Global-variable initial values (part_010 lines 24-40). -/
def initState : FwState where
  scanning := false
  paused := false
  scan_direction_up := true
  current_theta_step := 0
  paused_layer := 0
  paused_step := 0
  scan_current_layer := 0
  scan_current_step := 0
  step_by_step_mode := false
  theta_steps_per_rev := DEFAULT_THETA_STEPS_PER_REV
  z_steps_per_mm := DEFAULT_Z_STEPS_PER_MM
  z_travel_mm := DEFAULT_Z_TRAVEL_MM
  z_steps_per_layer := DEFAULT_Z_STEPS_PER_LAYER
  scan_delay_ms := DEFAULT_SCAN_DELAY_MS
  center_distance_cm := 15
  steps_per_rev := DEFAULT_STEPS_PER_REV

/-! ### Motor control (part_010 lines 284-309, 367-375) -/

/-- One LOW-then-HIGH pulse pair per iteration on the given STEP pin. -/
def pulseTrain (pin : Nat) : Nat → List Ev
  | 0 => []
  | n + 1 => Ev.pinWrite pin false :: Ev.pinWrite pin true :: pulseTrain pin n

/-- Embedding of `rotateMotorX(int steps)` (part_010 lines 284-291): the
`for (int i = 0; i < steps; i++)` loop runs `steps` times for non-negative
`steps` and zero times otherwise. -/
def rotateMotorX (steps : Int) : List Ev := pulseTrain X_STEP_PIN steps.toNat

/-- Embedding of `rotateMotorZ(int steps)` (part_010 lines 293-300). -/
def rotateMotorZ (steps : Int) : List Ev := pulseTrain Z_STEP_PIN steps.toNat

/-- Body of the `for (i < totalZSteps)` loops of `moveToTop`/`returnToHome`:
`n` calls of `rotateMotorZ(z_steps_per_layer)`. -/
def zLoop (zspl : Int) : Nat → List Ev
  | 0 => []
  | n + 1 => rotateMotorZ zspl ++ zLoop zspl n

/-- Embedding of `moveToTop()` (part_010 lines 302-309). -/
def moveToTop (s : FwState) : List Ev :=
  let totalZSteps := (s.z_travel_mm * s.z_steps_per_mm).tdiv s.z_steps_per_layer
  Ev.pinWrite Z_DIR_PIN false :: zLoop s.z_steps_per_layer totalZSteps.toNat

/-- Embedding of `returnToHome()` (part_010 lines 367-375). -/
def returnToHome (s : FwState) : List Ev :=
  let totalZSteps := (s.z_travel_mm * s.z_steps_per_mm).tdiv s.z_steps_per_layer
  Ev.pinWrite Z_DIR_PIN true ::
    (zLoop s.z_steps_per_layer totalZSteps.toNat ++ [Ev.pinWrite Z_DIR_PIN false])

/-! ### Scan-step angle arithmetic -/

/-- The C expression `(step % theta) * 360.0 / theta` (int remainder, then
float arithmetic). -/
def cAngle (step theta : Int) : ℚ :=
  ((step.tmod theta : Int) : ℚ) * 360 / (theta : ℚ)

/-- The `zLayers` computation of `performScanStep` (part_010 lines 313-319):
guarded division with a fallback of 1000 when the quotient is not positive. -/
def zLayersStep (s : FwState) : Int :=
  let zL0 : Int :=
    if s.z_steps_per_layer > 0 then
      (s.z_travel_mm * s.z_steps_per_mm).tdiv s.z_steps_per_layer
    else 0
  if zL0 ≤ 0 then 1000 else zL0

/-- Embedding of `performScanStep()` (part_010 lines 312-365). Returns the
new state, the new sensor-read cursor, and the emitted events. -/
def performScanStep (env : Env) (s : FwState) (k : Nat) : FwState × Nat × List Ev :=
  let zLayers := zLayersStep s
  if s.scan_current_step ≥ s.theta_steps_per_rev then
    let s1 := { s with scan_current_step := 0,
                       scan_current_layer := s.scan_current_layer + 1 }
    if s1.scan_current_layer ≥ zLayers ∧ s1.scan_current_layer > 0 then
      ({ s1 with scanning := false, step_by_step_mode := false }, k,
        [Ev.line .scanComplete])
    else
      let zev : List Ev :=
        if s1.z_steps_per_layer > 0 then
          Ev.pinWrite Z_DIR_PIN (if s1.scan_direction_up then false else true) ::
            (rotateMotorZ s1.z_steps_per_layer ++ [Ev.pinWrite Z_DIR_PIN false])
        else []
      (s1, k, zev ++ [Ev.line .delim])
  else
    let s1 := { s with
      scan_current_step := s.scan_current_step + 1,
      current_theta_step := (s.current_theta_step + 1).tmod s.theta_steps_per_rev }
    let d := readVL53L0X (env.sensor k)
    let ang := cAngle s1.scan_current_step s1.theta_steps_per_rev
    (s1, k + 1,
      Ev.pinWrite X_DIR_PIN false ::
        (rotateMotorX 1 ++
          [Ev.line (.point s1.scan_current_layer (s1.scan_current_step - 1) d ang)]))

/-! ### CONFIG command processing (part_010 lines 617-696) -/

/-- Parsed values of a `CONFIG,...` command: the five integer fields parsed
into `intValues[0..4]`, the optional centre-distance field and the optional
steps-per-rev field (absent fields keep the local defaults 10.3 and
`DEFAULT_STEPS_PER_REV`, part_010 lines 622-623). The embedding covers
commands supplying all five integer fields; with fewer fields the C code
reads uninitialized `intValues` entries. -/
structure ConfigParams where
  t : Int
  zt : Int
  zm : Int
  zl : Int
  d : Int
  center : Option ℚ
  spr : Option Int
deriving Repr, DecidableEq

def ConfigParams.centerDist (p : ConfigParams) : ℚ := p.center.getD (103 / 10)

def ConfigParams.stepsPerRev (p : ConfigParams) : Int := p.spr.getD DEFAULT_STEPS_PER_REV

/-- Embedding of `processConfigCommand` (part_010 lines 617-696) after
parameter parsing: range check on theta, theta-vs-steps-per-rev check, then
the joint positivity check guarding the update of all seven variables. -/
def processConfigCommand (p : ConfigParams) (s : FwState) : FwState × List Ev :=
  let centerDist := p.centerDist
  let stepsPerRev := p.stepsPerRev
  if p.t < MIN_THETA_STEPS_PER_REV ∨ p.t > MAX_THETA_STEPS_PER_REV then
    (s, [Ev.line .configErrorRange])
  else if p.t > stepsPerRev then
    (s, [Ev.line .configErrorExceeds])
  else if p.t > 0 ∧ p.zt > 0 ∧ p.zm > 0 ∧ p.zl > 0 ∧ p.d ≥ 0 ∧
      centerDist > 0 ∧ stepsPerRev > 0 then
    ({ s with theta_steps_per_rev := p.t, z_travel_mm := p.zt,
              z_steps_per_mm := p.zm, z_steps_per_layer := p.zl,
              scan_delay_ms := p.d, center_distance_cm := centerDist,
              steps_per_rev := stepsPerRev },
      [Ev.line (.configOk p.t p.zt p.zm p.zl p.d centerDist stepsPerRev)])
  else
    (s, [Ev.line .configErrorInvalid])

/-! ### Resume scanning (part_010 lines 526-614)

`resumeScan`'s loops repeatedly re-test `scanning && !paused`, but nothing in
the loop bodies writes either flag (the sketch has no interrupts and reads no
serial input inside `resumeScan`), so the embedding keeps the re-tests that
guard state writes (`if (paused) { paused_layer = ...; break; }` after the
inner loop, and the `layer < zLayers - 1 && scanning && !paused` guard of the
Z move) and the loop-head conditions, and drops the remaining provably inert
re-tests. -/

/-- Inner `for (step = step_start; step < theta_steps_per_rev && scanning &&
!paused; step++)` loop of `resumeScan` (part_010 lines 542-579). -/
def resumeStepLoop (env : Env) (spp rem layer : Int) (s : FwState) (k : Nat)
    (step : Int) : FwState × Nat × List Ev :=
  if h : step < s.theta_steps_per_rev ∧ s.scanning = true ∧ s.paused = false then
    let stp := if step < rem then spp + 1 else spp
    let s1 := { s with
      current_theta_step := (s.current_theta_step + 1).tmod s.theta_steps_per_rev }
    let d := readVL53L0X (env.sensor k)
    let ang := cAngle step s.theta_steps_per_rev
    let r := resumeStepLoop env spp rem layer s1 (k + 1) (step + 1)
    (r.1, r.2.1,
      (rotateMotorX stp ++ [Ev.line (.point layer step d ang)]) ++ r.2.2)
  else (s, k, [])
termination_by (s.theta_steps_per_rev - step).toNat
decreasing_by omega

/-- Outer `for (layer = start_layer; layer < zLayers && scanning && !paused;
layer++)` loop of `resumeScan` (part_010 lines 540-610). -/
def resumeLayerLoop (env : Env) (zLayers spp rem start_layer start_step : Int)
    (s : FwState) (k : Nat) (layer : Int) : FwState × Nat × List Ev :=
  if h : layer < zLayers ∧ s.scanning = true ∧ s.paused = false then
    let step_start := if layer = start_layer then start_step else 0
    let ri := resumeStepLoop env spp rem layer s k step_start
    let s1 := ri.1
    if s1.paused then
      ({ s1 with paused_layer := layer, paused_step := 0 }, ri.2.1, ri.2.2)
    else
      let zev : List Ev :=
        if layer < zLayers - 1 ∧ s1.scanning = true ∧ s1.paused = false then
          Ev.pinWrite Z_DIR_PIN true ::
            (rotateMotorZ s1.z_steps_per_layer ++
              [Ev.pinWrite Z_DIR_PIN false, Ev.line .delim])
        else []
      let r := resumeLayerLoop env zLayers spp rem start_layer start_step s1
        ri.2.1 (layer + 1)
      (r.1, r.2.1, (ri.2.2 ++ zev) ++ r.2.2)
  else (s, k, [])
termination_by (zLayers - layer).toNat
decreasing_by omega

/-- Embedding of `resumeScan()` (part_010 lines 526-614). -/
def resumeScan (env : Env) (s : FwState) (k : Nat) : FwState × Nat × List Ev :=
  let zLayers := (s.z_travel_mm * s.z_steps_per_mm).tdiv s.z_steps_per_layer
  let start_layer := s.paused_layer
  let start_step := s.paused_step
  let ev0 : List Ev :=
    if start_layer = 0 ∧ start_step = 0 then
      Ev.line .resumingMovingToTop :: moveToTop s
    else []
  let spp := s.steps_per_rev.tdiv s.theta_steps_per_rev
  let rem := s.steps_per_rev.tmod s.theta_steps_per_rev
  let r := resumeLayerLoop env zLayers spp rem start_layer start_step s k start_layer
  let ev2 : List Ev :=
    if r.1.scanning = true ∧ r.1.paused = false then returnToHome r.1 else []
  (r.1, r.2.1, (ev0 ++ r.2.2) ++ ev2)

/-! ### Serial command dispatch (part_010 lines 110-262) -/

/-- The serial commands the main loop recognizes, with their arguments
already parsed the way the handlers parse them (`toInt` on the substring
after the comma for the ROTATE family). `START` and `START_UP` share one
handler and hence one constructor. Any unrecognized line is `unknown`. -/
inductive Command where
  | start
  | startDown
  | scanStep
  | stop
  | resume
  | home
  | moveToTopCmd
  | test
  | testPoint
  | rotate (n : Int)
  | rotateCCW (n : Int)
  | rotateZ (n : Int)
  | rotateZCCW (n : Int)
  | config (p : ConfigParams)
  | getConfig
  | readLidar
  | unknown
deriving Repr, DecidableEq

/-- Embedding of one iteration of `loop()` (part_010 lines 110-262) on a
received command line. -/
def processCommand (env : Env) (c : Command) (s : FwState) (k : Nat) :
    FwState × Nat × List Ev :=
  match c with
  | .start =>
    ({ s with scanning := true, paused := false, paused_layer := 0,
              paused_step := 0, scan_current_layer := 0, scan_current_step := 0,
              scan_direction_up := true, step_by_step_mode := true,
              current_theta_step := 0 }, k, [Ev.line .scanStart])
  | .startDown =>
    ({ s with scanning := true, paused := false, paused_layer := 0,
              paused_step := 0, scan_current_layer := 0, scan_current_step := 0,
              scan_direction_up := false, step_by_step_mode := true,
              current_theta_step := 0 }, k, [Ev.line .scanStart])
  | .scanStep =>
    if s.scanning = false ∨ s.step_by_step_mode = false then
      (s, k, [Ev.line .errorNotStepMode])
    else performScanStep env s k
  | .stop =>
    ({ s with paused := true, scanning := false }, k, [Ev.line .scanPaused])
  | .resume =>
    if s.paused then
      let s1 := { s with paused := false, scanning := true }
      let r := resumeScan env s1 k
      let evc : List Ev := if r.1.paused = false then [Ev.line .scanComplete] else []
      ({ r.1 with scanning := false }, r.2.1,
        Ev.line .scanResumed :: (r.2.2 ++ evc))
    else (s, k, [])
  | .home =>
    (s, k, returnToHome s ++ [Ev.line .homeComplete])
  | .moveToTopCmd =>
    (s, k, Ev.line .movingToTop :: (moveToTop s ++ [Ev.line .moveToTopComplete]))
  | .test =>
    (s, k + 1, [Ev.line (.testDistance (readVL53L0X (env.sensor k)))])
  | .testPoint =>
    let d := readVL53L0X (env.sensor k)
    let ang := cAngle s.current_theta_step s.theta_steps_per_rev
    (s, k + 1, [Ev.line (.testPoint ang d)])
  | .rotate n =>
    if n > 0 then
      ({ s with current_theta_step := (s.current_theta_step + n).tmod s.theta_steps_per_rev },
        k, Ev.pinWrite X_DIR_PIN false :: (rotateMotorX n ++ [Ev.line (.rotated n)]))
    else (s, k, [Ev.line .rotateError])
  | .rotateCCW n =>
    if n > 0 then
      ({ s with current_theta_step :=
          (s.current_theta_step - n + s.theta_steps_per_rev).tmod s.theta_steps_per_rev },
        k, Ev.pinWrite X_DIR_PIN true :: (rotateMotorX n ++ [Ev.line (.rotated (-n))]))
    else (s, k, [])
  | .rotateZ n =>
    if n > 0 then
      (s, k, Ev.pinWrite Z_DIR_PIN false :: (rotateMotorZ n ++ [Ev.line (.rotatedZ n)]))
    else (s, k, [Ev.line .rotateZError])
  | .rotateZCCW n =>
    if n > 0 then
      (s, k, Ev.pinWrite Z_DIR_PIN true :: (rotateMotorZ n ++ [Ev.line (.rotatedZ (-n))]))
    else (s, k, [])
  | .config p =>
    let r := processConfigCommand p s
    (r.1, k, r.2)
  | .getConfig =>
    (s, k, [Ev.line (.currentConfig s.theta_steps_per_rev s.z_travel_mm
      s.z_steps_per_mm s.z_steps_per_layer s.scan_delay_ms
      s.center_distance_cm s.steps_per_rev)])
  | .readLidar =>
    (s, k + 1, [Ev.line (.lidarDistance (readVL53L0X (env.sensor k)))])
  | .unknown => (s, k, [])

/-- Processing of a sequence of command lines, accumulating events. -/
def runCommands (env : Env) (s : FwState) (k : Nat) :
    List Command → FwState × Nat × List Ev
  | [] => (s, k, [])
  | c :: cs =>
    let r := processCommand env c s k
    let r2 := runCommands env r.1 r.2.1 cs
    (r2.1, r2.2.1, r.2.2 ++ r2.2.2)

/-! ### Serial rendering of point lines (part_010 lines 358-364, 342) -/

/-- Digit character 0. -/
def zeroDigit : Char := Char.ofNat 48

/-- Arduino `Print::print(double, digits)` for the non-negative values the
sketch prints: add the rounding term `0.5 * 10^-digits`, print the integer
part, a dot, then `digits` decimal digits. -/
def renderFixed (q : ℚ) (d : Nat) : String :=
  let m := (⌊(q + 1 / (2 * (10 : ℚ) ^ d)) * (10 : ℚ) ^ d⌋).toNat
  let frac := toString (m % 10 ^ d)
  let pad := String.mk (List.replicate (d - frac.length) zeroDigit)
  toString (m / 10 ^ d) ++ "." ++ (pad ++ frac)

/-- The rendered text of the data lines of the scan stream: a point line is
the four comma-separated `Serial.print` fields of part_010 lines 358-364
(distance with 2 decimals, angle with 1 decimal), and the layer delimiter is
`Serial.println(DATA_DELIMITER)` with `DATA_DELIMITER = 9999`. -/
def renderDataLine : OutLine → Option String
  | .point layer step dist angle =>
    some (toString layer ++ "," ++ toString step ++ "," ++
      renderFixed dist 2 ++ ("," ++ renderFixed angle 1))
  | .delim => some "9999"
  | _ => none

/-! ### Sensor selection across the firmware variants (claim C5)

The repository contains three firmware entry points and three distance-sensor
drivers. This table records, from the source, which sensor-read function each
scanning loop calls for its per-point measurement:
* the main sketch (src/unnamed/part_010): `performScanStep`, `performScan`
  and `resumeScan` all call `readVL53L0X()` (Pololu VL53L0X library);
* the TF-Luna sketch appended in src/firmware/i2c.c (its `performScanStep`,
  `performScan`, `resumeScan`): all call `readTF_Luna()`;
* the GRBL-integrated build (src/unnamed/part_007 `main`): calls
  `vl53l0x_init` and enters GRBL's `protocol_main_loop`, which contains no
  per-point scan sampling; the VL53L1 driver's read function
  `vl53l1_readRangeContinuousMillimeters` (src/unnamed/part_008) has no
  caller anywhere in the tree (checked over every source file).
-/

inductive SensorKind where
  | tfLuna
  | vl53l0x
  | vl53l1
deriving Repr, DecidableEq

inductive FirmwareVariant where
  | mainSketch
  | tfLunaSketch
  | grblIntegration
deriving Repr, DecidableEq

/-- The sensor whose read function the scan loop of each firmware variant
calls for its per-point distance measurement, per the source survey above. -/
def scanLoopSensor : FirmwareVariant → Option SensorKind
  | .mainSketch => some .vl53l0x
  | .tfLunaSketch => some .tfLuna
  | .grblIntegration => none

/-! ### Spec-side companion definitions

These definitions follow the words of the specification and of the claims
(expected point streams, expected position sets, pulse counting, net Z
displacement); the theorems below compare them with the source-derived
functions above. -/

/-- Expected point lines of one (partial) rotation layer: `n` consecutive
points of `layer` starting at step `st` and sensor-read index `k`, each with
the angle of its own printed step. -/
def stepLines (env : Env) (T layer : Int) : Nat → Int → Nat → List OutLine
  | 0, _, _ => []
  | n + 1, st, k =>
    .point layer st (readVL53L0X (env.sensor k)) (cAngle st T) ::
      stepLines env T layer n (st + 1) (k + 1)

/-- Expected line stream of the resumed scan: the start layer from
`start_step`, every later layer from step 0, a `delim` line after every layer
except the last (`layer < zLayers - 1`). `m` is the number of layers left. -/
def layerLines (env : Env) (zLayers T start_layer start_step : Int) :
    Nat → Int → Nat → List OutLine
  | 0, _, _ => []
  | m + 1, layer, k =>
    let st0 := if layer = start_layer then start_step else 0
    let n := (T - st0).toNat
    let pts := stepLines env T layer n st0 k
    if layer < zLayers - 1 then
      pts ++ (.delim ::
        layerLines env zLayers T start_layer start_step m (layer + 1) (k + n))
    else pts ++ layerLines env zLayers T start_layer start_step m (layer + 1) (k + n)

/-- Count of rising edges (LOW-to-HIGH step pulses) on a pin. -/
def risingEdges (pin : Nat) (evs : List Ev) : Nat :=
  (evs.filter fun e => e = Ev.pinWrite pin true).length

/-- Net signed Z displacement in motor steps of an event trace: each rising
edge on the Z STEP pin moves one step up when the Z DIR pin last written is
LOW and one step down when it is HIGH; `dir` is the current DIR level. -/
def zNetAux (dir : Bool) : List Ev → Int
  | [] => 0
  | Ev.pinWrite p hi :: rest =>
    if p = Z_DIR_PIN then zNetAux hi rest
    else if p = Z_STEP_PIN ∧ hi = true then
      (if dir then -1 else 1) + zNetAux dir rest
    else zNetAux dir rest
  | Ev.line _ :: rest => zNetAux dir rest

/-- Net Z displacement starting from the DIR level LOW that `initMotors`
establishes (part_010 line 277). -/
def zNet (evs : List Ev) : Int := zNetAux false evs

/-! ### Basic lemmas about the event projections -/

theorem linesOf_append (a b : List Ev) : linesOf (a ++ b) = linesOf a ++ linesOf b :=
  List.filterMap_append a b _

theorem pinsOf_append (a b : List Ev) : pinsOf (a ++ b) = pinsOf a ++ pinsOf b :=
  List.filterMap_append a b _

theorem pointPositions_append (a b : List OutLine) :
    pointPositions (a ++ b) = pointPositions a ++ pointPositions b :=
  List.filterMap_append a b _

theorem linesOf_pulseTrain (p : Nat) (n : Nat) : linesOf (pulseTrain p n) = [] := by
  induction n with
  | zero => rfl
  | succ n ih => simpa [pulseTrain, linesOf] using ih

theorem pinsOf_pulseTrain (p : Nat) (n : Nat) :
    ∀ q ∈ pinsOf (pulseTrain p n), q = p := by
  induction n with
  | zero => intro q hq; simp [pulseTrain, pinsOf] at hq
  | succ n ih =>
    intro q hq
    simp only [pulseTrain, pinsOf, List.filterMap_cons] at hq
    simp only [List.mem_cons] at hq
    rcases hq with h | h | h
    · exact h
    · exact h
    · exact ih q h

theorem linesOf_zLoop (zspl : Int) (n : Nat) : linesOf (zLoop zspl n) = [] := by
  induction n with
  | zero => rfl
  | succ n ih =>
    simp [zLoop, linesOf_append, ih, rotateMotorZ, linesOf_pulseTrain]

theorem pinsOf_zLoop (zspl : Int) (n : Nat) :
    ∀ q ∈ pinsOf (zLoop zspl n), q = Z_STEP_PIN := by
  induction n with
  | zero => intro q hq; simp [zLoop, pinsOf] at hq
  | succ n ih =>
    intro q hq
    rw [zLoop, pinsOf_append, List.mem_append] at hq
    rcases hq with h | h
    · exact pinsOf_pulseTrain _ _ q h
    · exact ih q h

theorem linesOf_moveToTop (s : FwState) : linesOf (moveToTop s) = [] := by
  have h := linesOf_zLoop s.z_steps_per_layer
    ((s.z_travel_mm * s.z_steps_per_mm).tdiv s.z_steps_per_layer).toNat
  simp only [linesOf] at h
  simp [moveToTop, linesOf, h]

theorem linesOf_returnToHome (s : FwState) : linesOf (returnToHome s) = [] := by
  have h := linesOf_zLoop s.z_steps_per_layer
    ((s.z_travel_mm * s.z_steps_per_mm).tdiv s.z_steps_per_layer).toNat
  simp only [linesOf] at h
  simp [returnToHome, linesOf, h]

theorem pinsOf_moveToTop (s : FwState) :
    ∀ q ∈ pinsOf (moveToTop s), q = Z_DIR_PIN ∨ q = Z_STEP_PIN := by
  intro q hq
  simp only [moveToTop, pinsOf, List.filterMap_cons] at hq
  simp only [List.mem_cons] at hq
  rcases hq with h | h
  · exact Or.inl h
  · exact Or.inr (pinsOf_zLoop _ _ q h)

theorem pinsOf_returnToHome (s : FwState) :
    ∀ q ∈ pinsOf (returnToHome s), q = Z_DIR_PIN ∨ q = Z_STEP_PIN := by
  intro q hq
  simp only [returnToHome, pinsOf, List.filterMap_cons] at hq
  simp only [List.mem_cons] at hq
  rcases hq with h | h
  · exact Or.inl h
  · rw [← pinsOf, pinsOf_append, List.mem_append] at h
    rcases h with h | h
    · exact Or.inr (pinsOf_zLoop _ _ q h)
    · simp only [pinsOf, List.filterMap_cons, List.filterMap_nil, List.mem_singleton] at h
      exact Or.inl h

/-! ### Pulse counting lemmas -/

theorem risingEdges_append (p : Nat) (a b : List Ev) :
    risingEdges p (a ++ b) = risingEdges p a + risingEdges p b := by
  simp [risingEdges, List.filter_append]

theorem risingEdges_pulseTrain_self (p : Nat) (n : Nat) :
    risingEdges p (pulseTrain p n) = n := by
  induction n with
  | zero => rfl
  | succ n ih => simp [pulseTrain, risingEdges, List.filter] at ih ⊢; omega

theorem risingEdges_zLoop (zspl : Int) (n : Nat) :
    risingEdges Z_STEP_PIN (zLoop zspl n) = n * zspl.toNat := by
  induction n with
  | zero => simp [zLoop, risingEdges]
  | succ n ih =>
    rw [zLoop, risingEdges_append, ih, rotateMotorZ, risingEdges_pulseTrain_self]
    ring

theorem risingEdges_moveToTop (s : FwState) :
    risingEdges Z_STEP_PIN (moveToTop s) =
      ((s.z_travel_mm * s.z_steps_per_mm).tdiv s.z_steps_per_layer).toNat *
        s.z_steps_per_layer.toNat := by
  simp only [moveToTop]
  have : risingEdges Z_STEP_PIN (Ev.pinWrite Z_DIR_PIN false ::
      zLoop s.z_steps_per_layer
        ((s.z_travel_mm * s.z_steps_per_mm).tdiv s.z_steps_per_layer).toNat) =
      risingEdges Z_STEP_PIN (zLoop s.z_steps_per_layer
        ((s.z_travel_mm * s.z_steps_per_mm).tdiv s.z_steps_per_layer).toNat) := by
    simp [risingEdges, List.filter, Z_STEP_PIN, Z_DIR_PIN]
  rw [this, risingEdges_zLoop]

theorem risingEdges_returnToHome (s : FwState) :
    risingEdges Z_STEP_PIN (returnToHome s) =
      ((s.z_travel_mm * s.z_steps_per_mm).tdiv s.z_steps_per_layer).toNat *
        s.z_steps_per_layer.toNat := by
  simp only [returnToHome]
  rw [show (Ev.pinWrite Z_DIR_PIN true ::
      (zLoop s.z_steps_per_layer
        ((s.z_travel_mm * s.z_steps_per_mm).tdiv s.z_steps_per_layer).toNat ++
        [Ev.pinWrite Z_DIR_PIN false])) =
      [Ev.pinWrite Z_DIR_PIN true] ++
      (zLoop s.z_steps_per_layer
        ((s.z_travel_mm * s.z_steps_per_mm).tdiv s.z_steps_per_layer).toNat ++
        [Ev.pinWrite Z_DIR_PIN false]) from rfl]
  rw [risingEdges_append, risingEdges_append, risingEdges_zLoop]
  simp [risingEdges, List.filter, Z_STEP_PIN, Z_DIR_PIN]

/-! ### Net Z displacement lemmas -/

theorem zNetAux_cons_zstep_low (dir : Bool) (rest : List Ev) :
    zNetAux dir (Ev.pinWrite Z_STEP_PIN false :: rest) = zNetAux dir rest := by
  simp [zNetAux, Z_STEP_PIN, Z_DIR_PIN]

theorem zNetAux_cons_zstep_high (dir : Bool) (rest : List Ev) :
    zNetAux dir (Ev.pinWrite Z_STEP_PIN true :: rest) =
      (if dir then -1 else 1) + zNetAux dir rest := by
  simp [zNetAux, Z_STEP_PIN, Z_DIR_PIN]

theorem zNetAux_cons_zdir (dir hi : Bool) (rest : List Ev) :
    zNetAux dir (Ev.pinWrite Z_DIR_PIN hi :: rest) = zNetAux hi rest := by
  simp [zNetAux]

theorem zNetAux_pulseTrainZ (dir : Bool) (n : Nat) (rest : List Ev) :
    zNetAux dir (pulseTrain Z_STEP_PIN n ++ rest) =
      (if dir then -(n : Int) else (n : Int)) + zNetAux dir rest := by
  induction n with
  | zero => simp [pulseTrain]
  | succ n ih =>
    simp only [pulseTrain, List.cons_append, zNetAux_cons_zstep_low,
      zNetAux_cons_zstep_high, ih]
    cases dir <;> simp <;> ring

theorem zNetAux_zLoop (dir : Bool) (zspl : Int) (n : Nat) (rest : List Ev) :
    zNetAux dir (zLoop zspl n ++ rest) =
      (if dir then -((n * zspl.toNat : Nat) : Int) else ((n * zspl.toNat : Nat) : Int)) +
        zNetAux dir rest := by
  induction n with
  | zero => cases dir <;> simp [zLoop]
  | succ n ih =>
    rw [zLoop, List.append_assoc, rotateMotorZ, zNetAux_pulseTrainZ, ih]
    cases dir <;> simp <;> ring

/-! ### Arithmetic helper: C remainder on non-negative operands -/

theorem tmod_range (a b : Int) (ha : 0 ≤ a) (hb : 0 < b) :
    0 ≤ a.tmod b ∧ a.tmod b < b := by
  rw [Int.tmod_eq_emod ha (le_of_lt hb)]
  exact ⟨Int.emod_nonneg a (by omega), Int.emod_lt_of_pos a hb⟩

/-! ### Characterization of the resume loops -/

theorem resumeStepLoop_pos (env : Env) (spp rem layer : Int) (s : FwState)
    (k : Nat) (step : Int)
    (h : step < s.theta_steps_per_rev ∧ s.scanning = true ∧ s.paused = false) :
    resumeStepLoop env spp rem layer s k step =
      ((resumeStepLoop env spp rem layer
          { s with current_theta_step :=
              (s.current_theta_step + 1).tmod s.theta_steps_per_rev }
          (k + 1) (step + 1)).1,
       (resumeStepLoop env spp rem layer
          { s with current_theta_step :=
              (s.current_theta_step + 1).tmod s.theta_steps_per_rev }
          (k + 1) (step + 1)).2.1,
       (rotateMotorX (if step < rem then spp + 1 else spp) ++
          [Ev.line (.point layer step (readVL53L0X (env.sensor k))
            (cAngle step s.theta_steps_per_rev))]) ++
        (resumeStepLoop env spp rem layer
          { s with current_theta_step :=
              (s.current_theta_step + 1).tmod s.theta_steps_per_rev }
          (k + 1) (step + 1)).2.2) := by
  rw [resumeStepLoop, dif_pos h]

theorem resumeStepLoop_neg (env : Env) (spp rem layer : Int) (s : FwState)
    (k : Nat) (step : Int)
    (h : ¬ (step < s.theta_steps_per_rev ∧ s.scanning = true ∧ s.paused = false)) :
    resumeStepLoop env spp rem layer s k step = (s, k, []) := by
  rw [resumeStepLoop, dif_neg h]

theorem resumeStepLoop_run (env : Env) (spp rem layer : Int) :
    ∀ (n : Nat) (s : FwState) (k : Nat) (st : Int),
    s.scanning = true → s.paused = false →
    (s.theta_steps_per_rev - st).toNat = n →
    ((resumeStepLoop env spp rem layer s k st).1.scanning = s.scanning ∧
     (resumeStepLoop env spp rem layer s k st).1.paused = s.paused ∧
     (resumeStepLoop env spp rem layer s k st).1.theta_steps_per_rev =
       s.theta_steps_per_rev) ∧
    (resumeStepLoop env spp rem layer s k st).2.1 = k + n ∧
    linesOf (resumeStepLoop env spp rem layer s k st).2.2 =
      stepLines env s.theta_steps_per_rev layer n st k ∧
    (∀ q ∈ pinsOf (resumeStepLoop env spp rem layer s k st).2.2, q = X_STEP_PIN) ∧
    ((0 ≤ s.current_theta_step ∧ s.current_theta_step < s.theta_steps_per_rev) →
      (0 ≤ (resumeStepLoop env spp rem layer s k st).1.current_theta_step ∧
        (resumeStepLoop env spp rem layer s k st).1.current_theta_step <
          s.theta_steps_per_rev)) := by
  intro n
  induction n with
  | zero =>
    intro s k st hs hp hn
    have hst : ¬ st < s.theta_steps_per_rev := by omega
    rw [resumeStepLoop_neg env spp rem layer s k st (by tauto)]
    refine ⟨⟨rfl, rfl, rfl⟩, rfl, rfl, ?_, fun hc => hc⟩
    intro q hq
    simp [pinsOf] at hq
  | succ n ih =>
    intro s k st hs hp hn
    have hst : st < s.theta_steps_per_rev := by omega
    rw [resumeStepLoop_pos env spp rem layer s k st ⟨hst, hs, hp⟩]
    dsimp only
    have ihh := ih
      { s with current_theta_step :=
          (s.current_theta_step + 1).tmod s.theta_steps_per_rev }
      (k + 1) (st + 1) hs hp (by simp only []; omega)
    obtain ⟨⟨ihs, ihp, ihT⟩, ih2, ih3, ih4, ih5⟩ := ihh
    refine ⟨⟨ihs, ihp, ihT⟩, by omega, ?_, ?_, ?_⟩
    · rw [linesOf_append, linesOf_append]
      have h1 : linesOf (rotateMotorX (if st < rem then spp + 1 else spp)) = [] :=
        linesOf_pulseTrain _ _
      rw [h1, ih3]
      rfl
    · intro q hq
      rw [pinsOf_append, pinsOf_append, List.mem_append, List.mem_append] at hq
      rcases hq with (h | h) | h
      · exact pinsOf_pulseTrain _ _ q h
      · simp [pinsOf] at h
      · exact ih4 q h
    · intro hc
      have hT : 0 < s.theta_steps_per_rev := by omega
      have hm := tmod_range (s.current_theta_step + 1) s.theta_steps_per_rev
        (by omega) hT
      exact ih5 ⟨hm.1, hm.2⟩

theorem resumeLayerLoop_neg (env : Env) (zLayers spp rem start_layer start_step : Int)
    (s : FwState) (k : Nat) (layer : Int)
    (h : ¬ (layer < zLayers ∧ s.scanning = true ∧ s.paused = false)) :
    resumeLayerLoop env zLayers spp rem start_layer start_step s k layer = (s, k, []) := by
  rw [resumeLayerLoop, dif_neg h]

theorem linesOf_zmove (z : Int) :
    linesOf (Ev.pinWrite Z_DIR_PIN true ::
      (rotateMotorZ z ++ [Ev.pinWrite Z_DIR_PIN false, Ev.line .delim])) =
      [OutLine.delim] := by
  have h := linesOf_pulseTrain Z_STEP_PIN z.toNat
  simp only [linesOf] at h
  simp [linesOf, rotateMotorZ, h]

theorem pinsOf_zmove (z : Int) :
    ∀ q ∈ pinsOf (Ev.pinWrite Z_DIR_PIN true ::
      (rotateMotorZ z ++ [Ev.pinWrite Z_DIR_PIN false, Ev.line .delim])),
      q = Z_DIR_PIN ∨ q = Z_STEP_PIN := by
  intro q hq
  simp only [pinsOf, List.filterMap_cons, List.filterMap_append] at hq
  simp only [List.mem_cons, List.mem_append] at hq
  rcases hq with h | h | h
  · exact Or.inl h
  · exact Or.inr (pinsOf_pulseTrain _ _ q h)
  · simp only [List.filterMap_cons, List.filterMap_nil, List.mem_cons,
      List.not_mem_nil, or_false, List.mem_singleton] at h
    exact Or.inl h

theorem resumeLayerLoop_run (env : Env) (zLayers spp rem start_layer start_step : Int) :
    ∀ (m : Nat) (s : FwState) (k : Nat) (layer : Int),
    s.scanning = true → s.paused = false →
    (zLayers - layer).toNat = m →
    ((resumeLayerLoop env zLayers spp rem start_layer start_step s k layer).1.scanning =
       s.scanning ∧
     (resumeLayerLoop env zLayers spp rem start_layer start_step s k layer).1.paused =
       s.paused ∧
     (resumeLayerLoop env zLayers spp rem start_layer start_step s k layer).1.theta_steps_per_rev =
       s.theta_steps_per_rev) ∧
    linesOf (resumeLayerLoop env zLayers spp rem start_layer start_step s k layer).2.2 =
      layerLines env zLayers s.theta_steps_per_rev start_layer start_step m layer k ∧
    (∀ q ∈ pinsOf (resumeLayerLoop env zLayers spp rem start_layer start_step s k layer).2.2,
      q = X_STEP_PIN ∨ q = Z_STEP_PIN ∨ q = Z_DIR_PIN) ∧
    ((0 ≤ s.current_theta_step ∧ s.current_theta_step < s.theta_steps_per_rev) →
      (0 ≤ (resumeLayerLoop env zLayers spp rem start_layer start_step s k layer).1.current_theta_step ∧
        (resumeLayerLoop env zLayers spp rem start_layer start_step s k layer).1.current_theta_step <
          s.theta_steps_per_rev)) := by
  intro m
  induction m with
  | zero =>
    intro s k layer hs hp hm
    have hl : ¬ layer < zLayers := by omega
    rw [resumeLayerLoop_neg env zLayers spp rem start_layer start_step s k layer (by tauto)]
    refine ⟨⟨rfl, rfl, rfl⟩, rfl, ?_, fun hc => hc⟩
    intro q hq
    simp [pinsOf] at hq
  | succ m ih =>
    intro s k layer hs hp hm
    have hl : layer < zLayers := by omega
    rw [resumeLayerLoop, dif_pos ⟨hl, hs, hp⟩]
    dsimp only
    obtain ⟨⟨a1s, a1p, a1T⟩, a2, a3, a4, a5⟩ := resumeStepLoop_run env spp rem layer
      ((s.theta_steps_per_rev - (if layer = start_layer then start_step else 0)).toNat)
      s k (if layer = start_layer then start_step else 0) hs hp rfl
    have hp1 : (resumeStepLoop env spp rem layer s k
        (if layer = start_layer then start_step else 0)).1.paused = false :=
      a1p.trans hp
    have hsc1 : (resumeStepLoop env spp rem layer s k
        (if layer = start_layer then start_step else 0)).1.scanning = true :=
      a1s.trans hs
    rw [hp1]
    simp only [Bool.false_eq_true, if_false]
    obtain ⟨⟨b1s, b1p, b1T⟩, b2, b3, b4⟩ := ih
      (resumeStepLoop env spp rem layer s k
        (if layer = start_layer then start_step else 0)).1
      (resumeStepLoop env spp rem layer s k
        (if layer = start_layer then start_step else 0)).2.1
      (layer + 1) hsc1 hp1 (by omega)
    refine ⟨⟨b1s.trans a1s, b1p.trans a1p, b1T.trans a1T⟩, ?_, ?_, ?_⟩
    · rw [linesOf_append, linesOf_append, a3, b2, a1T, a2]
      simp only [hsc1, eq_self_iff_true, and_true, true_and]
      by_cases hz : layer < zLayers - 1
      · rw [if_pos hz, linesOf_zmove]
        simp only [layerLines, if_pos hz]
        simp [List.append_assoc]
      · rw [if_neg hz]
        simp only [layerLines, if_neg hz]
        simp [List.append_assoc, linesOf]
    · intro q hq
      rw [pinsOf_append, pinsOf_append, List.mem_append, List.mem_append] at hq
      simp only [hsc1, eq_self_iff_true, and_true, true_and] at hq
      rcases hq with (h | h) | h
      · exact Or.inl (a4 q h)
      · by_cases hz : layer < zLayers - 1
        · rw [if_pos hz] at h
          rcases pinsOf_zmove _ q h with h' | h'
          · exact Or.inr (Or.inr h')
          · exact Or.inr (Or.inl h')
        · rw [if_neg hz] at h
          simp [pinsOf] at h
      · exact b3 q h
    · intro hc
      have h5 := a5 hc
      have h6 := b4 (by rw [a1T]; exact h5)
      rw [a1T] at h6
      exact h6

theorem linesOf_cons_line (x : OutLine) (evs : List Ev) :
    linesOf (Ev.line x :: evs) = x :: linesOf evs := by
  simp [linesOf]

theorem linesOf_cons_pin (p : Nat) (b : Bool) (evs : List Ev) :
    linesOf (Ev.pinWrite p b :: evs) = linesOf evs := by
  simp [linesOf]

theorem resumeScan_run (env : Env) (s : FwState) (k : Nat)
    (hs : s.scanning = true) (hp : s.paused = false) :
    ((resumeScan env s k).1.scanning = true ∧
     (resumeScan env s k).1.paused = false ∧
     (resumeScan env s k).1.theta_steps_per_rev = s.theta_steps_per_rev) ∧
    linesOf (resumeScan env s k).2.2 =
      (if s.paused_layer = 0 ∧ s.paused_step = 0 then [OutLine.resumingMovingToTop]
       else []) ++
        layerLines env ((s.z_travel_mm * s.z_steps_per_mm).tdiv s.z_steps_per_layer)
          s.theta_steps_per_rev s.paused_layer s.paused_step
          (((s.z_travel_mm * s.z_steps_per_mm).tdiv s.z_steps_per_layer) -
            s.paused_layer).toNat
          s.paused_layer k ∧
    (∀ q ∈ pinsOf (resumeScan env s k).2.2,
        q = X_STEP_PIN ∨ q = Z_STEP_PIN ∨ q = Z_DIR_PIN) ∧
    ((0 ≤ s.current_theta_step ∧ s.current_theta_step < s.theta_steps_per_rev) →
      (0 ≤ (resumeScan env s k).1.current_theta_step ∧
        (resumeScan env s k).1.current_theta_step < s.theta_steps_per_rev)) := by
  obtain ⟨⟨c1s, c1p, c1T⟩, c2, c3, c4⟩ := resumeLayerLoop_run env
    ((s.z_travel_mm * s.z_steps_per_mm).tdiv s.z_steps_per_layer)
    (s.steps_per_rev.tdiv s.theta_steps_per_rev)
    (s.steps_per_rev.tmod s.theta_steps_per_rev)
    s.paused_layer s.paused_step
    (((s.z_travel_mm * s.z_steps_per_mm).tdiv s.z_steps_per_layer) -
      s.paused_layer).toNat
    s k s.paused_layer hs hp rfl
  simp only [resumeScan]
  have hcond : (resumeLayerLoop env
      ((s.z_travel_mm * s.z_steps_per_mm).tdiv s.z_steps_per_layer)
      (s.steps_per_rev.tdiv s.theta_steps_per_rev)
      (s.steps_per_rev.tmod s.theta_steps_per_rev) s.paused_layer
      s.paused_step s k s.paused_layer).1.scanning = true ∧
      (resumeLayerLoop env
      ((s.z_travel_mm * s.z_steps_per_mm).tdiv s.z_steps_per_layer)
      (s.steps_per_rev.tdiv s.theta_steps_per_rev)
      (s.steps_per_rev.tmod s.theta_steps_per_rev) s.paused_layer
      s.paused_step s k s.paused_layer).1.paused = false :=
    ⟨c1s.trans hs, c1p.trans hp⟩
  rw [if_pos hcond]
  refine ⟨⟨c1s.trans hs, c1p.trans hp, c1T⟩, ?_, ?_, c4⟩
  · rw [linesOf_append, linesOf_append, c2, linesOf_returnToHome, List.append_nil]
    by_cases h0 : s.paused_layer = 0 ∧ s.paused_step = 0
    · rw [if_pos h0, if_pos h0, linesOf_cons_line]
      have hm := linesOf_moveToTop s
      rw [show OutLine.resumingMovingToTop :: linesOf (moveToTop s) ++
          layerLines env ((s.z_travel_mm * s.z_steps_per_mm).tdiv s.z_steps_per_layer)
            s.theta_steps_per_rev s.paused_layer s.paused_step
            (((s.z_travel_mm * s.z_steps_per_mm).tdiv s.z_steps_per_layer) -
              s.paused_layer).toNat s.paused_layer k =
          OutLine.resumingMovingToTop :: (linesOf (moveToTop s) ++
          layerLines env ((s.z_travel_mm * s.z_steps_per_mm).tdiv s.z_steps_per_layer)
            s.theta_steps_per_rev s.paused_layer s.paused_step
            (((s.z_travel_mm * s.z_steps_per_mm).tdiv s.z_steps_per_layer) -
              s.paused_layer).toNat s.paused_layer k) from rfl, hm]
      rfl
    · rw [if_neg h0, if_neg h0]
      rfl
  · intro q hq
    rw [pinsOf_append, pinsOf_append, List.mem_append, List.mem_append] at hq
    rcases hq with (h | h) | h
    · by_cases h0 : s.paused_layer = 0 ∧ s.paused_step = 0
      · rw [if_pos h0] at h
        rw [show (Ev.line OutLine.resumingMovingToTop :: moveToTop s) =
            [Ev.line OutLine.resumingMovingToTop] ++ moveToTop s from rfl,
          pinsOf_append, List.mem_append] at h
        rcases h with h | h
        · simp [pinsOf] at h
        · rcases pinsOf_moveToTop s q h with h' | h'
          · exact Or.inr (Or.inr h')
          · exact Or.inr (Or.inl h')
      · rw [if_neg h0] at h
        simp [pinsOf] at h
    · exact c3 q h
    · rcases pinsOf_returnToHome _ q h with h' | h'
      · exact Or.inr (Or.inr h')
      · exact Or.inr (Or.inl h')

theorem processResume_run (env : Env) (s : FwState) (k : Nat) (hp : s.paused = true) :
    ((processCommand env .resume s k).1.scanning = false ∧
     (processCommand env .resume s k).1.paused = false ∧
     (processCommand env .resume s k).1.theta_steps_per_rev = s.theta_steps_per_rev) ∧
    linesOf (processCommand env .resume s k).2.2 =
      OutLine.scanResumed ::
        (((if s.paused_layer = 0 ∧ s.paused_step = 0 then [OutLine.resumingMovingToTop]
           else []) ++
          layerLines env ((s.z_travel_mm * s.z_steps_per_mm).tdiv s.z_steps_per_layer)
            s.theta_steps_per_rev s.paused_layer s.paused_step
            (((s.z_travel_mm * s.z_steps_per_mm).tdiv s.z_steps_per_layer) -
              s.paused_layer).toNat s.paused_layer k) ++ [OutLine.scanComplete]) ∧
    (∀ q ∈ pinsOf (processCommand env .resume s k).2.2,
        q = X_STEP_PIN ∨ q = Z_STEP_PIN ∨ q = Z_DIR_PIN) ∧
    ((0 ≤ s.current_theta_step ∧ s.current_theta_step < s.theta_steps_per_rev) →
      (0 ≤ (processCommand env .resume s k).1.current_theta_step ∧
        (processCommand env .resume s k).1.current_theta_step < s.theta_steps_per_rev)) := by
  obtain ⟨⟨d1s, d1p, d1T⟩, d2, d3, d4⟩ := resumeScan_run env
    { s with paused := false, scanning := true } k rfl rfl
  simp only [processCommand, hp, if_true]
  have hcc : (resumeScan env { s with paused := false, scanning := true } k).1.paused =
      false := d1p
  rw [hcc]
  simp only [eq_self_iff_true, if_true]
  refine ⟨⟨trivial, trivial, d1T⟩, ?_, ?_, d4⟩
  · rw [linesOf_cons_line, linesOf_append, d2]
    rfl
  · intro q hq
    have hpp : pinsOf (Ev.line OutLine.scanResumed ::
        ((resumeScan env { s with paused := false, scanning := true } k).2.2 ++
          [Ev.line OutLine.scanComplete])) =
        pinsOf (resumeScan env { s with paused := false, scanning := true } k).2.2 := by
      simp [pinsOf, List.filterMap_append]
    rw [hpp] at hq
    exact d3 q hq

theorem mem_pointPositions_stepLines (env : Env) (T layer : Int) :
    ∀ (n : Nat) (st : Int) (k : Nat) (l st' : Int),
    ((l, st') ∈ pointPositions (stepLines env T layer n st k) ↔
      (l = layer ∧ st ≤ st' ∧ st' < st + n)) := by
  intro n
  induction n with
  | zero =>
    intro st k l st'
    simp only [stepLines, pointPositions, List.filterMap_nil, List.not_mem_nil,
      false_iff]
    omega
  | succ n ih =>
    intro st k l st'
    simp only [stepLines, pointPositions, List.filterMap_cons, List.mem_cons]
    rw [← pointPositions, ih (st + 1) (k + 1) l st']
    constructor
    · rintro (h | h)
      · obtain ⟨h1, h2⟩ := Prod.mk.injEq _ _ _ _ ▸ h
        refine ⟨by omega, by omega, by omega⟩
      · exact ⟨h.1, by omega, by omega⟩
    · rintro ⟨h1, h2, h3⟩
      by_cases hst : st' = st
      · exact Or.inl (by rw [h1, hst])
      · exact Or.inr ⟨h1, by omega, by omega⟩

theorem pointPositions_ignore_delim (a : List OutLine) (b : List OutLine) :
    pointPositions (a ++ (OutLine.delim :: b)) = pointPositions a ++ pointPositions b := by
  rw [pointPositions_append]
  simp [pointPositions]

theorem mem_pointPositions_layerLines (env : Env) (zL T sl ss : Int) :
    ∀ (m : Nat) (layer : Int) (k : Nat),
    (zL - layer).toNat = m →
    ∀ (l st' : Int),
    ((l, st') ∈ pointPositions (layerLines env zL T sl ss m layer k) ↔
      (layer ≤ l ∧ l < zL ∧ (if l = sl then ss else 0) ≤ st' ∧ st' < T)) := by
  intro m
  induction m with
  | zero =>
    intro layer k hm l st'
    simp only [layerLines, pointPositions, List.filterMap_nil, List.not_mem_nil,
      false_iff]
    omega
  | succ m ih =>
    intro layer k hm l st'
    simp only [layerLines]
    by_cases hz : layer < zL - 1
    · rw [if_pos hz, pointPositions_ignore_delim, List.mem_append,
        mem_pointPositions_stepLines, ih (layer + 1) _ (by omega) l st']
      by_cases hlay : layer = sl
      · rw [if_pos hlay]
        by_cases hsl : l = sl
        · rw [if_pos hsl]; omega
        · rw [if_neg hsl]; omega
      · rw [if_neg hlay]
        by_cases hsl : l = sl
        · rw [if_pos hsl]; omega
        · rw [if_neg hsl]; omega
    · rw [if_neg hz, pointPositions_append, List.mem_append,
        mem_pointPositions_stepLines, ih (layer + 1) _ (by omega) l st']
      by_cases hlay : layer = sl
      · rw [if_pos hlay]
        by_cases hsl : l = sl
        · rw [if_pos hsl]; omega
        · rw [if_neg hsl]; omega
      · rw [if_neg hlay]
        by_cases hsl : l = sl
        · rw [if_pos hsl]; omega
        · rw [if_neg hsl]; omega

/-- A concrete sensor environment used by witnesses and counterexamples:
every read returns 100 mm without timeout. -/
def constEnv : Env := ⟨fun _ => ⟨false, 100⟩⟩

theorem zNetAux_cons_line (dir : Bool) (l : OutLine) (rest : List Ev) :
    zNetAux dir (Ev.line l :: rest) = zNetAux dir rest := by
  simp [zNetAux]

theorem risingEdges_cons_line (p : Nat) (l : OutLine) (rest : List Ev) :
    risingEdges p (Ev.line l :: rest) = risingEdges p rest := by
  simp [risingEdges, List.filter]

theorem risingEdges_cons_pin_other (p q : Nat) (b : Bool) (rest : List Ev)
    (h : Ev.pinWrite q b ≠ Ev.pinWrite p true) :
    risingEdges p (Ev.pinWrite q b :: rest) = risingEdges p rest := by
  simp [risingEdges, List.filter, h]

/-- C9. Sensor-read result mapping: `readVL53L0X` returns 0.0 exactly when
the sensor reports a timeout, a raw distance of 0, or a raw distance above
1200 mm; in every other case it returns the raw distance divided by 10, and
every return value lies in [0, 120]. -/
theorem sensor_read_mapping (r : SensorR) :
    (readVL53L0X r = 0 ↔ (r.timeout = true ∨ r.raw = 0 ∨ r.raw > 1200)) ∧
    (¬ (r.timeout = true ∨ r.raw = 0 ∨ r.raw > 1200) →
      readVL53L0X r = (r.raw : ℚ) / 10) ∧
    0 ≤ readVL53L0X r ∧ readVL53L0X r ≤ 120 := by
  obtain ⟨t, raw⟩ := r
  cases t with
  | true =>
    have hv : readVL53L0X ⟨true, raw⟩ = 0 := rfl
    refine ⟨⟨fun _ => Or.inl rfl, fun _ => hv⟩, fun h => absurd (Or.inl rfl) h,
      by rw [hv], by rw [hv]; norm_num⟩
  | false =>
    by_cases hbad : raw > 1200 ∨ raw = 0
    · have hv : readVL53L0X ⟨false, raw⟩ = 0 := by
        simp only [readVL53L0X, Bool.false_eq_true, if_false]
        rw [if_pos hbad]
      refine ⟨⟨fun _ => ?_, fun _ => hv⟩, fun h => ?_, by rw [hv], by rw [hv]; norm_num⟩
      · rcases hbad with h | h
        · exact Or.inr (Or.inr h)
        · exact Or.inr (Or.inl h)
      · exact absurd (by tauto) h
    · have hv : readVL53L0X ⟨false, raw⟩ = (raw : ℚ) / 10 := by
        simp only [readVL53L0X, Bool.false_eq_true, if_false]
        rw [if_neg hbad]
      push_neg at hbad
      have hr0 : 0 < raw := by omega
      have hr12 : raw ≤ 1200 := by omega
      refine ⟨⟨fun hz => ?_, fun hc => ?_⟩, fun _ => hv, ?_, ?_⟩
      · rw [hv] at hz
        have : (raw : ℚ) = 0 := by
          field_simp at hz
          exact_mod_cast hz
        have : raw = 0 := by exact_mod_cast this
        omega
      · rcases hc with hc | hc | hc
        · exact absurd hc (by simp)
        · exact absurd hc (by show ¬ raw = 0; omega)
        · exact absurd hc (by show ¬ raw > 1200; omega)
      · rw [hv]
        positivity
      · rw [hv]
        rw [div_le_iff (by norm_num : (0:ℚ) < 10)]
        have : (raw : ℚ) ≤ 1200 := by exact_mod_cast hr12
        linarith

/-- Witness for C9: a valid in-range reading of 250 mm maps to 25 cm. -/
theorem sensor_read_mapping_witness :
    readVL53L0X ⟨false, 250⟩ = (250 : ℚ) / 10 :=
  (sensor_read_mapping ⟨false, 250⟩).2.1 (by decide)

/-- C7. Vertical-lift round trip: a MOVE_TO_TOP command followed by a HOME
command issues the same number of Z STEP pulses in each direction - namely
`((z_travel_mm * z_steps_per_mm) / z_steps_per_layer) * z_steps_per_layer`
pulses - with opposite initial Z DIR levels, so the net signed Z displacement
of the combined event trace is zero. -/
theorem vertical_lift_round_trip (env : Env) (s : FwState) (k : Nat) :
    risingEdges Z_STEP_PIN (processCommand env .moveToTopCmd s k).2.2 =
      ((s.z_travel_mm * s.z_steps_per_mm).tdiv s.z_steps_per_layer).toNat *
        s.z_steps_per_layer.toNat ∧
    risingEdges Z_STEP_PIN (processCommand env .home s k).2.2 =
      risingEdges Z_STEP_PIN (processCommand env .moveToTopCmd s k).2.2 ∧
    (moveToTop s).head? = some (Ev.pinWrite Z_DIR_PIN false) ∧
    (returnToHome s).head? = some (Ev.pinWrite Z_DIR_PIN true) ∧
    zNet ((processCommand env .moveToTopCmd s k).2.2 ++
      (processCommand env .home s k).2.2) = 0 := by
  have e1 : (processCommand env .moveToTopCmd s k).2.2 =
      Ev.line .movingToTop :: (moveToTop s ++ [Ev.line .moveToTopComplete]) := rfl
  have e2 : (processCommand env .home s k).2.2 =
      returnToHome s ++ [Ev.line .homeComplete] := rfl
  refine ⟨?_, ?_, rfl, rfl, ?_⟩
  · rw [e1, risingEdges_cons_line, risingEdges_append, risingEdges_moveToTop]
    simp [risingEdges, List.filter]
  · rw [e1, e2, risingEdges_cons_line, risingEdges_append, risingEdges_append,
      risingEdges_moveToTop, risingEdges_returnToHome]
    simp [risingEdges, List.filter]
  · rw [e1, e2, zNet]
    simp only [moveToTop, returnToHome, List.cons_append, List.append_assoc,
      List.nil_append, List.singleton_append]
    rw [zNetAux_cons_line, zNetAux_cons_zdir, zNetAux_zLoop]
    rw [zNetAux_cons_line, zNetAux_cons_zdir, zNetAux_zLoop]
    rw [zNetAux_cons_zdir, zNetAux_cons_line]
    simp [zNetAux]

/-- C3. CONFIG parameter validation is atomic: all seven configuration
variables are updated exactly when the parsed theta lies in [4, 3600], does
not exceed the parsed steps-per-rev, the first four integer parameters are
positive, the delay is non-negative, and the centre distance and
steps-per-rev are positive; in every other case one CONFIG_ERROR line is
printed and every configuration variable keeps its previous value. -/
theorem config_validation_atomic (p : ConfigParams) (s : FwState) :
    ((MIN_THETA_STEPS_PER_REV ≤ p.t ∧ p.t ≤ MAX_THETA_STEPS_PER_REV ∧
      p.t ≤ p.stepsPerRev ∧ 0 < p.t ∧ 0 < p.zt ∧ 0 < p.zm ∧ 0 < p.zl ∧
      0 ≤ p.d ∧ 0 < p.centerDist ∧ 0 < p.stepsPerRev) →
      processConfigCommand p s =
        ({ s with theta_steps_per_rev := p.t, z_travel_mm := p.zt,
                  z_steps_per_mm := p.zm, z_steps_per_layer := p.zl,
                  scan_delay_ms := p.d, center_distance_cm := p.centerDist,
                  steps_per_rev := p.stepsPerRev },
         [Ev.line (.configOk p.t p.zt p.zm p.zl p.d p.centerDist p.stepsPerRev)])) ∧
    (¬ (MIN_THETA_STEPS_PER_REV ≤ p.t ∧ p.t ≤ MAX_THETA_STEPS_PER_REV ∧
      p.t ≤ p.stepsPerRev ∧ 0 < p.t ∧ 0 < p.zt ∧ 0 < p.zm ∧ 0 < p.zl ∧
      0 ≤ p.d ∧ 0 < p.centerDist ∧ 0 < p.stepsPerRev) →
      (processConfigCommand p s).1 = s ∧
      ∃ e, (processConfigCommand p s).2 = [Ev.line e] ∧
        (e = OutLine.configErrorRange ∨ e = OutLine.configErrorExceeds ∨
         e = OutLine.configErrorInvalid)) := by
  constructor
  · rintro ⟨h1, h2, h3, h4, h5, h6, h7, h8, h9, h10⟩
    simp only [processConfigCommand]
    rw [if_neg (by simp only [MIN_THETA_STEPS_PER_REV, MAX_THETA_STEPS_PER_REV] at h1 h2 ⊢; omega),
      if_neg (by omega),
      if_pos ⟨h4, h5, h6, h7, h8, h9, h10⟩]
  · intro hn
    simp only [processConfigCommand]
    by_cases ha : p.t < MIN_THETA_STEPS_PER_REV ∨ p.t > MAX_THETA_STEPS_PER_REV
    · rw [if_pos ha]
      exact ⟨rfl, .configErrorRange, rfl, Or.inl rfl⟩
    · rw [if_neg ha]
      by_cases hb : p.t > p.stepsPerRev
      · rw [if_pos hb]
        exact ⟨rfl, .configErrorExceeds, rfl, Or.inr (Or.inl rfl)⟩
      · rw [if_neg hb]
        by_cases hc : p.t > 0 ∧ p.zt > 0 ∧ p.zm > 0 ∧ p.zl > 0 ∧ p.d ≥ 0 ∧
            p.centerDist > 0 ∧ p.stepsPerRev > 0
        · exfalso
          apply hn
          obtain ⟨c1, c2, c3, c4, c5, c6, c7⟩ := hc
          refine ⟨by omega, by omega, by omega, c1, c2, c3, c4, c5, c6, c7⟩
        · rw [if_neg hc]
          exact ⟨rfl, .configErrorInvalid, rfl, Or.inr (Or.inr rfl)⟩

/-- Witness for C3: the valid CONFIG 4,1,1,1,0,1,4 updates all seven
variables on the initial state. -/
theorem config_validation_atomic_witness :
    processConfigCommand ⟨4, 1, 1, 1, 0, some 1, some 4⟩ initState =
      ({ initState with theta_steps_per_rev := 4, z_travel_mm := 1,
                        z_steps_per_mm := 1, z_steps_per_layer := 1,
                        scan_delay_ms := 0, center_distance_cm := 1,
                        steps_per_rev := 4 },
       [Ev.line (.configOk 4 1 1 1 0 1 4)]) := by
  have h := (config_validation_atomic ⟨4, 1, 1, 1, 0, some 1, some 4⟩ initState).1
    (by refine ⟨?_, ?_, ?_, ?_, ?_, ?_, ?_, ?_, ?_, ?_⟩ <;> decide)
  exact h

/-! ### Branch lemmas for the SCAN_STEP handler (shared by several results) -/

theorem scanStep_zL_eq (s : FwState) (hzl : 0 < s.z_steps_per_layer) :
    zLayersStep s =
      (if 0 < (s.z_travel_mm * s.z_steps_per_mm).tdiv s.z_steps_per_layer
       then (s.z_travel_mm * s.z_steps_per_mm).tdiv s.z_steps_per_layer
       else 1000) := by
  simp only [zLayersStep, if_pos hzl]
  by_cases hq : 0 < (s.z_travel_mm * s.z_steps_per_mm).tdiv s.z_steps_per_layer
  · rw [if_pos hq, if_neg (by omega)]
  · rw [if_neg hq, if_pos (by omega)]

theorem scanStep_point_branch (env : Env) (s : FwState) (k : Nat)
    (hscan : s.scanning = true) (hsbs : s.step_by_step_mode = true)
    (hlt : s.scan_current_step < s.theta_steps_per_rev) :
    processCommand env .scanStep s k =
      ({ s with scan_current_step := s.scan_current_step + 1,
                current_theta_step :=
                  (s.current_theta_step + 1).tmod s.theta_steps_per_rev },
       k + 1,
       Ev.pinWrite X_DIR_PIN false ::
         (rotateMotorX 1 ++
           [Ev.line (.point s.scan_current_layer s.scan_current_step
             (readVL53L0X (env.sensor k))
             (cAngle (s.scan_current_step + 1) s.theta_steps_per_rev))])) := by
  have hcond : ¬ (s.scanning = false ∨ s.step_by_step_mode = false) := by
    rw [hscan, hsbs]; simp
  simp only [processCommand]
  rw [if_neg hcond]
  simp only [performScanStep]
  rw [if_neg (by omega : ¬ s.scan_current_step ≥ s.theta_steps_per_rev)]
  rw [show s.scan_current_step + 1 - 1 = s.scan_current_step from by ring]

theorem scanStep_complete_branch (env : Env) (s : FwState) (k : Nat)
    (hscan : s.scanning = true) (hsbs : s.step_by_step_mode = true)
    (hlayer : 0 ≤ s.scan_current_layer) (hzl : 0 < s.z_steps_per_layer)
    (hge : s.theta_steps_per_rev ≤ s.scan_current_step)
    (ha : (if 0 < (s.z_travel_mm * s.z_steps_per_mm).tdiv s.z_steps_per_layer
           then (s.z_travel_mm * s.z_steps_per_mm).tdiv s.z_steps_per_layer
           else 1000) ≤ s.scan_current_layer + 1) :
    processCommand env .scanStep s k =
      ({ s with scan_current_step := 0,
                scan_current_layer := s.scan_current_layer + 1,
                scanning := false, step_by_step_mode := false },
       k, [Ev.line .scanComplete]) := by
  have hcond : ¬ (s.scanning = false ∨ s.step_by_step_mode = false) := by
    rw [hscan, hsbs]; simp
  simp only [processCommand]
  rw [if_neg hcond]
  simp only [performScanStep]
  rw [scanStep_zL_eq s hzl, if_pos (by omega : s.scan_current_step ≥ s.theta_steps_per_rev)]
  rw [if_pos ⟨by omega, by omega⟩]

theorem scanStep_zmove_branch (env : Env) (s : FwState) (k : Nat)
    (hscan : s.scanning = true) (hsbs : s.step_by_step_mode = true)
    (hzl : 0 < s.z_steps_per_layer)
    (hge : s.theta_steps_per_rev ≤ s.scan_current_step)
    (hb : s.scan_current_layer + 1 <
          (if 0 < (s.z_travel_mm * s.z_steps_per_mm).tdiv s.z_steps_per_layer
           then (s.z_travel_mm * s.z_steps_per_mm).tdiv s.z_steps_per_layer
           else 1000)) :
    processCommand env .scanStep s k =
      ({ s with scan_current_step := 0,
                scan_current_layer := s.scan_current_layer + 1 },
       k,
       (Ev.pinWrite Z_DIR_PIN (if s.scan_direction_up then false else true) ::
         (rotateMotorZ s.z_steps_per_layer ++ [Ev.pinWrite Z_DIR_PIN false])) ++
         [Ev.line .delim]) := by
  have hcond : ¬ (s.scanning = false ∨ s.step_by_step_mode = false) := by
    rw [hscan, hsbs]; simp
  simp only [processCommand]
  rw [if_neg hcond]
  simp only [performScanStep]
  rw [scanStep_zL_eq s hzl, if_pos (by omega : s.scan_current_step ≥ s.theta_steps_per_rev)]
  rw [if_neg (by omega), if_pos hzl]

/-- C2. Step-by-step scan sequencing of the SCAN_STEP handler: while a
step-by-step scan is active, a SCAN_STEP with `scan_current_step` below
`theta_steps_per_rev` rotates motor X one step, increments the step counter,
advances `current_theta_step` modulo `theta_steps_per_rev`, consumes one
distance sample and prints one point line; at a layer boundary it resets the
step counter, increments the layer, and either prints SCAN_COMPLETE clearing
`scanning` and `step_by_step_mode` (when the new layer reaches
`zLayers = (z_travel_mm*z_steps_per_mm)/z_steps_per_layer`, taken as 1000
when that quotient is not positive) or moves motor Z one layer in the scan
direction and prints the `9999` delimiter. -/
theorem scan_step_sequencing (env : Env) (s : FwState) (k : Nat)
    (hscan : s.scanning = true) (hsbs : s.step_by_step_mode = true)
    (hlayer : 0 ≤ s.scan_current_layer) (hzl : 0 < s.z_steps_per_layer) :
    (s.scan_current_step < s.theta_steps_per_rev →
      processCommand env .scanStep s k =
        ({ s with scan_current_step := s.scan_current_step + 1,
                  current_theta_step :=
                    (s.current_theta_step + 1).tmod s.theta_steps_per_rev },
         k + 1,
         Ev.pinWrite X_DIR_PIN false ::
           (rotateMotorX 1 ++
             [Ev.line (.point s.scan_current_layer s.scan_current_step
               (readVL53L0X (env.sensor k))
               (cAngle (s.scan_current_step + 1) s.theta_steps_per_rev))]))) ∧
    (s.theta_steps_per_rev ≤ s.scan_current_step →
      ((if 0 < (s.z_travel_mm * s.z_steps_per_mm).tdiv s.z_steps_per_layer
        then (s.z_travel_mm * s.z_steps_per_mm).tdiv s.z_steps_per_layer
        else 1000) ≤ s.scan_current_layer + 1 →
        processCommand env .scanStep s k =
          ({ s with scan_current_step := 0,
                    scan_current_layer := s.scan_current_layer + 1,
                    scanning := false, step_by_step_mode := false },
           k, [Ev.line .scanComplete])) ∧
      (s.scan_current_layer + 1 <
          (if 0 < (s.z_travel_mm * s.z_steps_per_mm).tdiv s.z_steps_per_layer
           then (s.z_travel_mm * s.z_steps_per_mm).tdiv s.z_steps_per_layer
           else 1000) →
        processCommand env .scanStep s k =
          ({ s with scan_current_step := 0,
                    scan_current_layer := s.scan_current_layer + 1 },
           k,
           (Ev.pinWrite Z_DIR_PIN (if s.scan_direction_up then false else true) ::
             (rotateMotorZ s.z_steps_per_layer ++ [Ev.pinWrite Z_DIR_PIN false])) ++
             [Ev.line .delim]))) :=
  ⟨fun hlt => scanStep_point_branch env s k hscan hsbs hlt,
   fun hge =>
    ⟨fun ha => scanStep_complete_branch env s k hscan hsbs hlayer hzl hge ha,
     fun hb => scanStep_zmove_branch env s k hscan hsbs hzl hge hb⟩⟩

/-- A small active-scan state used by witnesses: theta = 4 points per
revolution, one layer of travel. -/
def stepWitnessState : FwState :=
  { initState with scanning := true, step_by_step_mode := true,
                   theta_steps_per_rev := 4, z_travel_mm := 1,
                   z_steps_per_mm := 1, z_steps_per_layer := 1,
                   steps_per_rev := 4 }

/-- Witness for C2: in the small active-scan state a SCAN_STEP at step 0
rotates one X step, samples once and prints the point line for step 0. -/
theorem scan_step_sequencing_witness :
    processCommand constEnv .scanStep stepWitnessState 0 =
      ({ stepWitnessState with
          scan_current_step := stepWitnessState.scan_current_step + 1,
          current_theta_step :=
            (stepWitnessState.current_theta_step + 1).tmod
              stepWitnessState.theta_steps_per_rev },
       0 + 1,
       Ev.pinWrite X_DIR_PIN false ::
         (rotateMotorX 1 ++
           [Ev.line (.point stepWitnessState.scan_current_layer
             stepWitnessState.scan_current_step
             (readVL53L0X (constEnv.sensor 0))
             (cAngle (stepWitnessState.scan_current_step + 1)
               stepWitnessState.theta_steps_per_rev))])) :=
  (scan_step_sequencing constEnv stepWitnessState 0 rfl rfl (by decide)
    (by decide)).1 (by decide)

/-! ### Angle bookkeeping of emitted point lines -/

theorem stepLines_angle (env : Env) (T layer : Int) :
    ∀ (n : Nat) (st : Int) (k : Nat) (l st' : Int) (d a : ℚ),
    OutLine.point l st' d a ∈ stepLines env T layer n st k → a = cAngle st' T := by
  intro n
  induction n with
  | zero => intro st k l st' d a h; simp [stepLines] at h
  | succ n ih =>
    intro st k l st' d a h
    rw [stepLines, List.mem_cons] at h
    rcases h with h | h
    · injection h with h1 h2 h3 h4
      rw [h4, h2]
    · exact ih (st + 1) (k + 1) l st' d a h

theorem layerLines_angle (env : Env) (zL T sl ss : Int) :
    ∀ (m : Nat) (layer : Int) (k : Nat) (l st' : Int) (d a : ℚ),
    OutLine.point l st' d a ∈ layerLines env zL T sl ss m layer k →
    a = cAngle st' T := by
  intro m
  induction m with
  | zero => intro layer k l st' d a h; simp [layerLines] at h
  | succ m ih =>
    intro layer k l st' d a h
    simp only [layerLines] at h
    by_cases hz : layer < zL - 1
    · rw [if_pos hz, List.mem_append, List.mem_cons] at h
      rcases h with h | h | h
      · exact stepLines_angle env T layer _ _ _ l st' d a h
      · exact absurd h (by simp)
      · exact ih (layer + 1) _ l st' d a h
    · rw [if_neg hz, List.mem_append] at h
      rcases h with h | h
      · exact stepLines_angle env T layer _ _ _ l st' d a h
      · exact ih (layer + 1) _ l st' d a h

theorem linesOf_zmove_delim (b : Bool) (z : Int) :
    linesOf ((Ev.pinWrite Z_DIR_PIN b ::
      (rotateMotorZ z ++ [Ev.pinWrite Z_DIR_PIN false])) ++ [Ev.line OutLine.delim]) =
      [OutLine.delim] := by
  have h := linesOf_pulseTrain Z_STEP_PIN z.toNat
  simp only [linesOf] at h
  simp [linesOf, rotateMotorZ, h]

theorem pulseTrain_no_lines (p : Nat) (n : Nat) :
    ∀ e ∈ pulseTrain p n,
      (match e with | Ev.line l => some l | _ => none) = (none : Option OutLine) := by
  induction n with
  | zero => intro e he; simp [pulseTrain] at he
  | succ n ih =>
    intro e he
    rw [pulseTrain, List.mem_cons, List.mem_cons] at he
    rcases he with h | h | h
    · rw [h]
    · rw [h]
    · exact ih e h

/-- Counterexample for C4: on fresh firmware (theta = 200), START followed by
one SCAN_STEP emits the point line with printed step 0 but with the angle of
step 1 (`cAngle 1 200` = 1.8 degrees), not `(0 mod 200) * 360 / 200 = 0` as
the claim states for the printed step: the angle is computed from the
already-incremented step counter. -/
theorem point_streaming_format_cex :
    linesOf (runCommands constEnv initState 0 [.start, .scanStep]).2.2 =
      [OutLine.scanStart,
       OutLine.point 0 0 (readVL53L0X (constEnv.sensor 0)) (cAngle 1 200)] ∧
    cAngle 1 200 ≠ cAngle 0 200 := by
  constructor
  · rfl
  · have t1 : Int.tmod 1 200 = 1 := by decide
    have t0 : Int.tmod 0 200 = 0 := by decide
    simp only [cAngle, t1, t0]
    norm_num

/-- C4 (amended). Point streaming format: every point line renders as the
four comma-separated fields layer,step,distance,angle with two and one
decimal places and the delimiter renders as 9999; the point line emitted by
a SCAN_STEP carries the angle of the incremented step counter,
`((step+1) mod theta) * 360 / theta` for its printed step, while every point
line emitted by a RESUME carries the angle of its own printed step; after a
completed layer the next SCAN_STEP emits exactly the delimiter line when the
new layer is not the last and exactly SCAN_COMPLETE when it is. -/
theorem point_streaming_format_amended (env : Env) :
    (∀ layer step d a,
      renderDataLine (OutLine.point layer step d a) =
        some (toString layer ++ "," ++ toString step ++ "," ++
          renderFixed d 2 ++ ("," ++ renderFixed a 1))) ∧
    renderDataLine OutLine.delim = some "9999" ∧
    (∀ s k, s.scanning = true → s.step_by_step_mode = true →
      s.scan_current_step < s.theta_steps_per_rev →
      linesOf (processCommand env .scanStep s k).2.2 =
        [OutLine.point s.scan_current_layer s.scan_current_step
          (readVL53L0X (env.sensor k))
          (cAngle (s.scan_current_step + 1) s.theta_steps_per_rev)]) ∧
    (∀ s k, s.scanning = true → s.step_by_step_mode = true →
      0 ≤ s.scan_current_layer → 0 < s.z_steps_per_layer →
      s.theta_steps_per_rev ≤ s.scan_current_step →
      ((linesOf (processCommand env .scanStep s k).2.2 = [OutLine.delim] ↔
        s.scan_current_layer + 1 <
          (if 0 < (s.z_travel_mm * s.z_steps_per_mm).tdiv s.z_steps_per_layer
           then (s.z_travel_mm * s.z_steps_per_mm).tdiv s.z_steps_per_layer
           else 1000)) ∧
       (linesOf (processCommand env .scanStep s k).2.2 = [OutLine.scanComplete] ↔
        (if 0 < (s.z_travel_mm * s.z_steps_per_mm).tdiv s.z_steps_per_layer
         then (s.z_travel_mm * s.z_steps_per_mm).tdiv s.z_steps_per_layer
         else 1000) ≤ s.scan_current_layer + 1))) ∧
    (∀ s k (layer step : Int) (d a : ℚ), s.paused = true →
      OutLine.point layer step d a ∈ linesOf (processCommand env .resume s k).2.2 →
      a = cAngle step s.theta_steps_per_rev) := by
  refine ⟨fun layer step d a => rfl, rfl, ?_, ?_, ?_⟩
  · intro s k hscan hsbs hlt
    rw [scanStep_point_branch env s k hscan hsbs hlt]
    have e : rotateMotorX 1 =
        [Ev.pinWrite X_STEP_PIN false, Ev.pinWrite X_STEP_PIN true] := rfl
    rw [e]
    simp [linesOf]
  · intro s k hscan hsbs hlayer hzl hge
    by_cases hb : s.scan_current_layer + 1 <
        (if 0 < (s.z_travel_mm * s.z_steps_per_mm).tdiv s.z_steps_per_layer
         then (s.z_travel_mm * s.z_steps_per_mm).tdiv s.z_steps_per_layer
         else 1000)
    · rw [scanStep_zmove_branch env s k hscan hsbs hzl hge hb]
      have h2 : linesOf ((Ev.pinWrite Z_DIR_PIN
          (if s.scan_direction_up then false else true) ::
          (rotateMotorZ s.z_steps_per_layer ++ [Ev.pinWrite Z_DIR_PIN false])) ++
          [Ev.line .delim]) = [OutLine.delim] := linesOf_zmove_delim _ _
      constructor
      · constructor
        · intro _; exact hb
        · intro _; exact h2
      · constructor
        · intro hcontra
          exfalso
          have hd : OutLine.delim = OutLine.scanComplete := by
            rw [h2] at hcontra
            injection hcontra
          exact absurd hd (by decide)
        · intro hcontra; omega
    · rw [scanStep_complete_branch env s k hscan hsbs hlayer hzl hge (by omega)]
      refine ⟨⟨fun hcontra => ?_, fun hcontra => by omega⟩,
        ⟨fun _ => by omega, fun _ => ?_⟩⟩
      · have : OutLine.scanComplete = OutLine.delim := by
          have h2 : linesOf [Ev.line OutLine.scanComplete] = [OutLine.scanComplete] := rfl
          rw [h2] at hcontra
          injection hcontra
        exact absurd this (by decide)
      · rfl
  · intro s k layer step d a hp hmem
    obtain ⟨_, r2, _, _⟩ := processResume_run env s k hp
    rw [r2, List.mem_cons, List.mem_append, List.mem_append] at hmem
    rcases hmem with h | (h | h) | h
    · simp at h
    · by_cases h0 : s.paused_layer = 0 ∧ s.paused_step = 0
      · rw [if_pos h0] at h
        simp at h
      · rw [if_neg h0] at h
        simp at h
    · exact layerLines_angle env _ _ _ _ _ _ _ layer step d a h
    · simp at h

/-- Witness for the amended C4: a SCAN_STEP in the small active state prints
the point line for step 0 with the angle of step 1 (90 degrees of 4 points
per revolution). -/
theorem point_streaming_format_amended_witness :
    linesOf (processCommand constEnv .scanStep stepWitnessState 0).2.2 =
      [OutLine.point 0 0 10 90] := by
  have h := (point_streaming_format_amended constEnv).2.2.1 stepWitnessState 0
    rfl rfl (by decide)
  rw [h]
  have e1 : readVL53L0X (constEnv.sensor 0) = 10 := by
    show (if (false : Bool) = true then (0 : ℚ)
      else if 100 > 1200 ∨ 100 = 0 then 0 else ((100 : Nat) : ℚ) / 10) = 10
    norm_num
  have e2 : cAngle (stepWitnessState.scan_current_step + 1)
      stepWitnessState.theta_steps_per_rev = 90 := by
    show cAngle (0 + 1) 4 = 90
    have t1 : Int.tmod (0 + 1) 4 = 1 := by decide
    simp only [cAngle, t1]
    norm_num
  rw [e1, e2]
  rfl

/-- Counterexample for C5, at the concrete sensor type VL53L1: the three
listed variants are all the firmware entry points of the tree, and none of
their scanning loops reads the VL53L1 - its driver has no caller anywhere. -/
theorem sensor_selectable_cex :
    scanLoopSensor FirmwareVariant.mainSketch = some SensorKind.vl53l0x ∧
    scanLoopSensor FirmwareVariant.tfLunaSketch = some SensorKind.tfLuna ∧
    scanLoopSensor FirmwareVariant.grblIntegration = none ∧
    ([scanLoopSensor FirmwareVariant.mainSketch,
      scanLoopSensor FirmwareVariant.tfLunaSketch,
      scanLoopSensor FirmwareVariant.grblIntegration].count
        (some SensorKind.vl53l1)) = 0 := by decide

/-- C5 (amended). The per-point distance source is selectable between
TF-Luna and VL53L0X: the main sketch's scan loop reads the VL53L0X and the
TF-Luna sketch's scan loop reads the TF-Luna, while the VL53L1 driver is
present but never called, so no variant (the list enumerates every
`FirmwareVariant`) scans with it. -/
theorem sensor_selectable_amended :
    (∃ v, scanLoopSensor v = some SensorKind.vl53l0x) ∧
    (∃ v, scanLoopSensor v = some SensorKind.tfLuna) ∧
    scanLoopSensor FirmwareVariant.grblIntegration = none ∧
    ([scanLoopSensor FirmwareVariant.mainSketch,
      scanLoopSensor FirmwareVariant.tfLunaSketch,
      scanLoopSensor FirmwareVariant.grblIntegration].count
        (some SensorKind.vl53l1)) = 0 :=
  ⟨⟨.mainSketch, rfl⟩, ⟨.tfLunaSketch, rfl⟩, rfl, by decide⟩

/-! ### Theta position invariant -/

/-- The condition under which `processConfigCommand` reaches its update
branch (all three guards passed). -/
def configAccepts (p : ConfigParams) : Prop :=
  ¬ (p.t < MIN_THETA_STEPS_PER_REV ∨ p.t > MAX_THETA_STEPS_PER_REV) ∧
  ¬ (p.t > p.stepsPerRev) ∧
  (p.t > 0 ∧ p.zt > 0 ∧ p.zm > 0 ∧ p.zl > 0 ∧ p.d ≥ 0 ∧
    p.centerDist > 0 ∧ p.stepsPerRev > 0)

/-- Counterexample for C8: with the initial configuration
(theta_steps_per_rev = 200, current_theta_step = 0) the command
ROTATE_CCW,500 drives current_theta_step to -100, outside [0, 200): the C
remainder `(0 - 500 + 200) % 200` is taken on a negative dividend. -/
theorem theta_invariant_cex :
    (0 < initState.theta_steps_per_rev ∧
     0 ≤ initState.current_theta_step ∧
     initState.current_theta_step < initState.theta_steps_per_rev) ∧
    (processCommand constEnv (.rotateCCW 500) initState 0).1.current_theta_step = -100 ∧
    ¬ 0 ≤ (processCommand constEnv (.rotateCCW 500) initState 0).1.current_theta_step := by
  decide

/-- C8 (amended). Theta position invariant: with theta_steps_per_rev > 0 and
current_theta_step in [0, theta_steps_per_rev), processing one serial
command keeps current_theta_step inside [0, theta_steps_per_rev) of the
resulting state, provided that a ROTATE_CCW,n satisfies
n <= current_theta_step + theta_steps_per_rev (larger n drives the value
negative, as the counterexample shows) and that an accepted CONFIG sets a
theta_steps_per_rev above the current position. -/
theorem theta_invariant_amended (env : Env) (c : Command) (s : FwState) (k : Nat)
    (hT : 0 < s.theta_steps_per_rev)
    (hc0 : 0 ≤ s.current_theta_step)
    (hcT : s.current_theta_step < s.theta_steps_per_rev)
    (hccw : ∀ n, c = .rotateCCW n →
      n ≤ s.current_theta_step + s.theta_steps_per_rev)
    (hcfg : ∀ p, c = .config p → configAccepts p → s.current_theta_step < p.t) :
    0 ≤ (processCommand env c s k).1.current_theta_step ∧
    (processCommand env c s k).1.current_theta_step <
      (processCommand env c s k).1.theta_steps_per_rev := by
  cases c with
  | start => exact ⟨le_refl 0, hT⟩
  | startDown => exact ⟨le_refl 0, hT⟩
  | scanStep =>
    simp only [processCommand]
    by_cases h : s.scanning = false ∨ s.step_by_step_mode = false
    · rw [if_pos h]; exact ⟨hc0, hcT⟩
    · rw [if_neg h]
      simp only [performScanStep]
      by_cases hge : s.scan_current_step ≥ s.theta_steps_per_rev
      · rw [if_pos hge]
        split
        · exact ⟨hc0, hcT⟩
        · exact ⟨hc0, hcT⟩
      · rw [if_neg hge]
        exact tmod_range (s.current_theta_step + 1) s.theta_steps_per_rev
          (by omega) hT
  | stop => exact ⟨hc0, hcT⟩
  | resume =>
    by_cases hp : s.paused = true
    · obtain ⟨⟨r1s, r1p, r1T⟩, r2, r3, r4⟩ := processResume_run env s k hp
      have h5 := r4 ⟨hc0, hcT⟩
      exact ⟨h5.1, by rw [r1T]; exact h5.2⟩
    · have hp' : s.paused = false := by
        cases hpp : s.paused
        · rfl
        · exact absurd hpp hp
      simp only [processCommand]
      rw [if_neg (by simp [hp'])]
      exact ⟨hc0, hcT⟩
  | home => exact ⟨hc0, hcT⟩
  | moveToTopCmd => exact ⟨hc0, hcT⟩
  | test => exact ⟨hc0, hcT⟩
  | testPoint => exact ⟨hc0, hcT⟩
  | rotate n =>
    simp only [processCommand]
    by_cases hn : n > 0
    · rw [if_pos hn]
      exact tmod_range (s.current_theta_step + n) s.theta_steps_per_rev
        (by omega) hT
    · rw [if_neg hn]; exact ⟨hc0, hcT⟩
  | rotateCCW n =>
    simp only [processCommand]
    by_cases hn : n > 0
    · rw [if_pos hn]
      have hb := hccw n rfl
      exact tmod_range (s.current_theta_step - n + s.theta_steps_per_rev)
        s.theta_steps_per_rev (by omega) hT
    · rw [if_neg hn]; exact ⟨hc0, hcT⟩
  | rotateZ n =>
    simp only [processCommand]
    by_cases hn : n > 0
    · rw [if_pos hn]; exact ⟨hc0, hcT⟩
    · rw [if_neg hn]; exact ⟨hc0, hcT⟩
  | rotateZCCW n =>
    simp only [processCommand]
    by_cases hn : n > 0
    · rw [if_pos hn]; exact ⟨hc0, hcT⟩
    · rw [if_neg hn]; exact ⟨hc0, hcT⟩
  | config p =>
    simp only [processCommand, processConfigCommand]
    by_cases ha : p.t < MIN_THETA_STEPS_PER_REV ∨ p.t > MAX_THETA_STEPS_PER_REV
    · rw [if_pos ha]; exact ⟨hc0, hcT⟩
    · rw [if_neg ha]
      by_cases hb : p.t > p.stepsPerRev
      · rw [if_pos hb]; exact ⟨hc0, hcT⟩
      · rw [if_neg hb]
        by_cases hcx : p.t > 0 ∧ p.zt > 0 ∧ p.zm > 0 ∧ p.zl > 0 ∧ p.d ≥ 0 ∧
            p.centerDist > 0 ∧ p.stepsPerRev > 0
        · rw [if_pos hcx]
          exact ⟨hc0, hcfg p rfl ⟨ha, hb, hcx⟩⟩
        · rw [if_neg hcx]; exact ⟨hc0, hcT⟩
  | getConfig => exact ⟨hc0, hcT⟩
  | readLidar => exact ⟨hc0, hcT⟩
  | unknown => exact ⟨hc0, hcT⟩

/-- Witness for the amended C8: ROTATE_CCW,10 from the initial state lands
at 190, inside [0, 200). -/
theorem theta_invariant_amended_witness :
    0 ≤ (processCommand constEnv (.rotateCCW 10) initState 0).1.current_theta_step ∧
    (processCommand constEnv (.rotateCCW 10) initState 0).1.current_theta_step <
      (processCommand constEnv (.rotateCCW 10) initState 0).1.theta_steps_per_rev :=
  theta_invariant_amended constEnv (.rotateCCW 10) initState 0 (by decide)
    (by decide) (by decide)
    (fun n h => by injection h with h1; subst h1; decide)
    (fun p h => by cases h)

/-! ### Direct pulse generation -/

theorem pinsOf_dirpulse (pin dirpin : Nat) (b : Bool) (z : Int) (tail : List Ev)
    (htail : ∀ q ∈ pinsOf tail, q = dirpin ∨ q = pin) :
    ∀ q ∈ pinsOf (Ev.pinWrite dirpin b :: (pulseTrain pin z.toNat ++ tail)),
      q = dirpin ∨ q = pin := by
  intro q hq
  simp only [pinsOf, List.filterMap_cons, List.filterMap_append] at hq
  simp only [List.mem_cons, List.mem_append] at hq
  rcases hq with h | h | h
  · exact Or.inl h
  · exact Or.inr (pinsOf_pulseTrain _ _ q h)
  · exact htail q h

theorem pinsOf_performScanStep (env : Env) (s : FwState) (k : Nat) :
    ∀ q ∈ pinsOf (performScanStep env s k).2.2,
      q = X_STEP_PIN ∨ q = X_DIR_PIN ∨ q = Z_STEP_PIN ∨ q = Z_DIR_PIN := by
  intro q hq
  simp only [performScanStep] at hq
  by_cases hge : s.scan_current_step ≥ s.theta_steps_per_rev
  · rw [if_pos hge] at hq
    split at hq
    · simp [pinsOf] at hq
    · rw [pinsOf_append, List.mem_append] at hq
      rcases hq with h | h
      · split at h
        · have hz := pinsOf_dirpulse Z_STEP_PIN Z_DIR_PIN _
            s.z_steps_per_layer [Ev.pinWrite Z_DIR_PIN false]
            (by intro q hq2; simp only [pinsOf, List.filterMap_cons,
              List.filterMap_nil, List.mem_singleton] at hq2; exact Or.inl hq2)
            q (by simpa [rotateMotorZ] using h)
          rcases hz with h' | h'
          · exact Or.inr (Or.inr (Or.inr h'))
          · exact Or.inr (Or.inr (Or.inl h'))
        · simp [pinsOf] at h
      · simp [pinsOf] at h
  · rw [if_neg hge] at hq
    have hx := pinsOf_dirpulse X_STEP_PIN X_DIR_PIN false 1
      [Ev.line (.point ({ s with
          scan_current_step := s.scan_current_step + 1,
          current_theta_step :=
            (s.current_theta_step + 1).tmod s.theta_steps_per_rev }).scan_current_layer
        (({ s with
          scan_current_step := s.scan_current_step + 1,
          current_theta_step :=
            (s.current_theta_step + 1).tmod s.theta_steps_per_rev }).scan_current_step - 1)
        (readVL53L0X (env.sensor k))
        (cAngle ({ s with
          scan_current_step := s.scan_current_step + 1,
          current_theta_step :=
            (s.current_theta_step + 1).tmod s.theta_steps_per_rev }).scan_current_step
          ({ s with
          scan_current_step := s.scan_current_step + 1,
          current_theta_step :=
            (s.current_theta_step + 1).tmod s.theta_steps_per_rev }).theta_steps_per_rev))]
      (by intro q hq2; simp [pinsOf] at hq2) q (by simpa [rotateMotorX] using hq)
    rcases hx with h' | h'
    · exact Or.inr (Or.inl h')
    · exact Or.inl h'

theorem pinsOf_processConfigCommand (p : ConfigParams) (s : FwState) :
    pinsOf (processConfigCommand p s).2 = [] := by
  simp only [processConfigCommand]
  by_cases ha : p.t < MIN_THETA_STEPS_PER_REV ∨ p.t > MAX_THETA_STEPS_PER_REV
  · rw [if_pos ha]; rfl
  · rw [if_neg ha]
    by_cases hb : p.t > p.stepsPerRev
    · rw [if_pos hb]; rfl
    · rw [if_neg hb]
      by_cases hcx : p.t > 0 ∧ p.zt > 0 ∧ p.zm > 0 ∧ p.zl > 0 ∧ p.d ≥ 0 ∧
          p.centerDist > 0 ∧ p.stepsPerRev > 0
      · rw [if_pos hcx]; rfl
      · rw [if_neg hcx]; rfl

theorem pinsOf_processCommand (env : Env) (c : Command) (s : FwState) (k : Nat) :
    ∀ q ∈ pinsOf (processCommand env c s k).2.2,
      q = X_STEP_PIN ∨ q = X_DIR_PIN ∨ q = Z_STEP_PIN ∨ q = Z_DIR_PIN := by
  intro q hq
  cases c with
  | start => simp [processCommand, pinsOf] at hq
  | startDown => simp [processCommand, pinsOf] at hq
  | scanStep =>
    simp only [processCommand] at hq
    split at hq
    · simp [pinsOf] at hq
    · exact pinsOf_performScanStep env s k q hq
  | stop => simp [processCommand, pinsOf] at hq
  | resume =>
    by_cases hp : s.paused = true
    · obtain ⟨_, _, r3, _⟩ := processResume_run env s k hp
      rcases r3 q hq with h | h | h
      · exact Or.inl h
      · exact Or.inr (Or.inr (Or.inl h))
      · exact Or.inr (Or.inr (Or.inr h))
    · have hp' : s.paused = false := by
        cases hpp : s.paused
        · rfl
        · exact absurd hpp hp
      simp only [processCommand] at hq
      rw [if_neg (by simp [hp'])] at hq
      simp [pinsOf] at hq
  | home =>
    simp only [processCommand] at hq
    rw [pinsOf_append, List.mem_append] at hq
    rcases hq with h | h
    · rcases pinsOf_returnToHome s q h with h' | h'
      · exact Or.inr (Or.inr (Or.inr h'))
      · exact Or.inr (Or.inr (Or.inl h'))
    · simp [pinsOf] at h
  | moveToTopCmd =>
    simp only [processCommand] at hq
    rw [show Ev.line OutLine.movingToTop ::
        (moveToTop s ++ [Ev.line OutLine.moveToTopComplete]) =
        [Ev.line OutLine.movingToTop] ++
        (moveToTop s ++ [Ev.line OutLine.moveToTopComplete]) from rfl,
      pinsOf_append, pinsOf_append, List.mem_append, List.mem_append] at hq
    rcases hq with h | h | h
    · simp [pinsOf] at h
    · rcases pinsOf_moveToTop s q h with h' | h'
      · exact Or.inr (Or.inr (Or.inr h'))
      · exact Or.inr (Or.inr (Or.inl h'))
    · simp [pinsOf] at h
  | test => simp [processCommand, pinsOf] at hq
  | testPoint => simp [processCommand, pinsOf] at hq
  | rotate n =>
    simp only [processCommand] at hq
    split at hq
    · rcases pinsOf_dirpulse X_STEP_PIN X_DIR_PIN false n
        [Ev.line (.rotated n)] (by intro q hq2; simp [pinsOf] at hq2) q
        (by simpa [rotateMotorX] using hq) with h' | h'
      · exact Or.inr (Or.inl h')
      · exact Or.inl h'
    · simp [pinsOf] at hq
  | rotateCCW n =>
    simp only [processCommand] at hq
    split at hq
    · rcases pinsOf_dirpulse X_STEP_PIN X_DIR_PIN true n
        [Ev.line (.rotated (-n))] (by intro q hq2; simp [pinsOf] at hq2) q
        (by simpa [rotateMotorX] using hq) with h' | h'
      · exact Or.inr (Or.inl h')
      · exact Or.inl h'
    · simp [pinsOf] at hq
  | rotateZ n =>
    simp only [processCommand] at hq
    split at hq
    · rcases pinsOf_dirpulse Z_STEP_PIN Z_DIR_PIN false n
        [Ev.line (.rotatedZ n)] (by intro q hq2; simp [pinsOf] at hq2) q
        (by simpa [rotateMotorZ] using hq) with h' | h'
      · exact Or.inr (Or.inr (Or.inr h'))
      · exact Or.inr (Or.inr (Or.inl h'))
    · simp [pinsOf] at hq
  | rotateZCCW n =>
    simp only [processCommand] at hq
    split at hq
    · rcases pinsOf_dirpulse Z_STEP_PIN Z_DIR_PIN true n
        [Ev.line (.rotatedZ (-n))] (by intro q hq2; simp [pinsOf] at hq2) q
        (by simpa [rotateMotorZ] using hq) with h' | h'
      · exact Or.inr (Or.inr (Or.inr h'))
      · exact Or.inr (Or.inr (Or.inl h'))
    · simp [pinsOf] at hq
  | config p =>
    simp only [processCommand] at hq
    rw [pinsOf_processConfigCommand] at hq
    simp at hq
  | getConfig => simp [processCommand, pinsOf] at hq
  | readLidar => simp [processCommand, pinsOf] at hq
  | unknown => simp [processCommand, pinsOf] at hq

/-- C6. Direct pulse generation: `rotateMotorX`/`rotateMotorZ` with a
non-negative step count emit exactly that many LOW-then-HIGH pulse pairs on
their STEP pin and nothing else, and the motor motion of every serial
command consists solely of digitalWrite events on the four motor pins (no
other function produces motion: there is no GRBL segment buffer or planner
in the sketch's control flow). -/
theorem direct_pulse_generation (n : Int) (hn : 0 ≤ n) :
    rotateMotorX n =
      (List.replicate n.toNat
        [Ev.pinWrite X_STEP_PIN false, Ev.pinWrite X_STEP_PIN true]).join ∧
    rotateMotorZ n =
      (List.replicate n.toNat
        [Ev.pinWrite Z_STEP_PIN false, Ev.pinWrite Z_STEP_PIN true]).join ∧
    risingEdges X_STEP_PIN (rotateMotorX n) = n.toNat ∧
    risingEdges Z_STEP_PIN (rotateMotorZ n) = n.toNat ∧
    (∀ env c s k, ∀ q ∈ pinsOf (processCommand env c s k).2.2,
      q = X_STEP_PIN ∨ q = X_DIR_PIN ∨ q = Z_STEP_PIN ∨ q = Z_DIR_PIN) := by
  have hjoin : ∀ (p : Nat) (m : Nat), pulseTrain p m =
      (List.replicate m [Ev.pinWrite p false, Ev.pinWrite p true]).join := by
    intro p m
    induction m with
    | zero => rfl
    | succ m ih => simp [pulseTrain, List.replicate_succ, ih]
  exact ⟨hjoin X_STEP_PIN n.toNat, hjoin Z_STEP_PIN n.toNat,
    risingEdges_pulseTrain_self _ _, risingEdges_pulseTrain_self _ _,
    fun env c s k => pinsOf_processCommand env c s k⟩

/-- Witness for C6: three X steps emit exactly three LOW-HIGH pulse pairs. -/
theorem direct_pulse_generation_witness :
    rotateMotorX 3 =
      [Ev.pinWrite X_STEP_PIN false, Ev.pinWrite X_STEP_PIN true,
       Ev.pinWrite X_STEP_PIN false, Ev.pinWrite X_STEP_PIN true,
       Ev.pinWrite X_STEP_PIN false, Ev.pinWrite X_STEP_PIN true] ∧
    risingEdges X_STEP_PIN (rotateMotorX 3) = 3 := by
  have h := direct_pulse_generation 3 (by decide)
  exact ⟨h.1.trans (by decide), (h.2.2.1).trans (by decide)⟩

/-! ### Pause/resume bookkeeping -/

theorem pointPositions_processResume (env : Env) (s : FwState) (k : Nat)
    (hp : s.paused = true) :
    pointPositions (linesOf (processCommand env .resume s k).2.2) =
      pointPositions (layerLines env
        ((s.z_travel_mm * s.z_steps_per_mm).tdiv s.z_steps_per_layer)
        s.theta_steps_per_rev s.paused_layer s.paused_step
        (((s.z_travel_mm * s.z_steps_per_mm).tdiv s.z_steps_per_layer) -
          s.paused_layer).toNat
        s.paused_layer k) := by
  obtain ⟨_, r2, _, _⟩ := processResume_run env s k hp
  rw [r2]
  by_cases h0 : s.paused_layer = 0 ∧ s.paused_step = 0
  · rw [if_pos h0]
    simp [pointPositions, List.filterMap_append, List.filterMap_cons]
  · rw [if_neg h0]
    simp [pointPositions, List.filterMap_append, List.filterMap_cons]

/-- Configuration used by the C1 counterexample: 4 points per revolution and
a single layer. -/
def cexParams : ConfigParams := ⟨4, 1, 1, 1, 0, some 1, some 4⟩

/-- State reached by CONFIG 4,1,1,1,0,1,4 then START, one SCAN_STEP and
STOP on fresh firmware. -/
def cexStopState : FwState :=
  (runCommands constEnv initState 0
    [.config cexParams, .start, .scanStep, .stop]).1

/-- Counterexample for C1: after CONFIG; START; one SCAN_STEP (which emits
point (0,0) and advances the scan position to layer 0 step 1), a STOP leaves
(paused_layer, paused_step) = (0,0): the pause position is not recorded; the
subsequent RESUME then re-emits the already-scanned point (0,0). -/
theorem pause_resume_bookkeeping_cex :
    (cexStopState.scan_current_layer = 0 ∧ cexStopState.scan_current_step = 1 ∧
     cexStopState.paused = true ∧
     cexStopState.paused_layer = 0 ∧ cexStopState.paused_step = 0) ∧
    ((0 : Int), (0 : Int)) ∈ pointPositions (linesOf
      (runCommands constEnv initState 0
        [.config cexParams, .start, .scanStep]).2.2) ∧
    ((0 : Int), (0 : Int)) ∈ pointPositions (linesOf
      (processCommand constEnv .resume cexStopState 0).2.2) := by
  refine ⟨by decide, by decide, ?_⟩
  rw [pointPositions_processResume constEnv cexStopState 0 (by decide)]
  rw [mem_pointPositions_layerLines constEnv
    ((cexStopState.z_travel_mm * cexStopState.z_steps_per_mm).tdiv
      cexStopState.z_steps_per_layer)
    cexStopState.theta_steps_per_rev cexStopState.paused_layer
    cexStopState.paused_step _ cexStopState.paused_layer 0 rfl 0 0]
  decide

/-- C1 (amended). Pause/resume bookkeeping: a STOP sets `paused`, clears
`scanning` and prints SCAN_PAUSED but does not record the scan position -
`paused_layer` and `paused_step` keep their previous values (in the shipped
step-by-step flow they stay at the 0,0 set by START, since `performScanStep`
never writes them). A RESUME received while paused prints SCAN_RESUMED
first, then emits exactly the point lines for the positions from the
recorded (paused_layer, paused_step) onward - the rest of that layer and
every step of each later layer below zLayers - and prints SCAN_COMPLETE
last. -/
theorem pause_resume_bookkeeping_amended (env : Env) (s : FwState) (k : Nat)
    (hp : s.paused = true)
    (hT : 0 < s.theta_steps_per_rev)
    (hl0 : 0 ≤ s.paused_layer)
    (hlZ : s.paused_layer <
      (s.z_travel_mm * s.z_steps_per_mm).tdiv s.z_steps_per_layer)
    (hs0 : 0 ≤ s.paused_step)
    (hs0T : s.paused_step < s.theta_steps_per_rev) :
    (∀ (s' : FwState) (k' : Nat),
      processCommand env .stop s' k' =
        ({ s' with paused := true, scanning := false }, k',
          [Ev.line .scanPaused])) ∧
    (linesOf (processCommand env .resume s k).2.2).head? =
      some OutLine.scanResumed ∧
    (linesOf (processCommand env .resume s k).2.2).getLast? =
      some OutLine.scanComplete ∧
    (∀ l st : Int,
      (l, st) ∈ pointPositions (linesOf (processCommand env .resume s k).2.2) ↔
        ((l = s.paused_layer ∧ s.paused_step ≤ st ∧
            st < s.theta_steps_per_rev) ∨
         (s.paused_layer < l ∧
          l < (s.z_travel_mm * s.z_steps_per_mm).tdiv s.z_steps_per_layer ∧
          0 ≤ st ∧ st < s.theta_steps_per_rev))) := by
  obtain ⟨_, r2, _, _⟩ := processResume_run env s k hp
  refine ⟨fun s' k' => rfl, ?_, ?_, ?_⟩
  · rw [r2]; rfl
  · rw [r2]
    rw [show OutLine.scanResumed ::
        (((if s.paused_layer = 0 ∧ s.paused_step = 0 then
            [OutLine.resumingMovingToTop] else []) ++
          layerLines env ((s.z_travel_mm * s.z_steps_per_mm).tdiv s.z_steps_per_layer)
            s.theta_steps_per_rev s.paused_layer s.paused_step
            (((s.z_travel_mm * s.z_steps_per_mm).tdiv s.z_steps_per_layer) -
              s.paused_layer).toNat s.paused_layer k) ++ [OutLine.scanComplete]) =
        (OutLine.scanResumed ::
          ((if s.paused_layer = 0 ∧ s.paused_step = 0 then
            [OutLine.resumingMovingToTop] else []) ++
          layerLines env ((s.z_travel_mm * s.z_steps_per_mm).tdiv s.z_steps_per_layer)
            s.theta_steps_per_rev s.paused_layer s.paused_step
            (((s.z_travel_mm * s.z_steps_per_mm).tdiv s.z_steps_per_layer) -
              s.paused_layer).toNat s.paused_layer k)) ++ [OutLine.scanComplete]
      from by simp]
    exact List.getLast?_concat _
  · intro l st
    rw [pointPositions_processResume env s k hp]
    rw [mem_pointPositions_layerLines env
      ((s.z_travel_mm * s.z_steps_per_mm).tdiv s.z_steps_per_layer)
      s.theta_steps_per_rev s.paused_layer s.paused_step _
      s.paused_layer k rfl l st]
    by_cases hls : l = s.paused_layer
    · rw [if_pos hls]
      omega
    · rw [if_neg hls]
      omega

/-- State used by the C1 amended witness: paused at layer 0, step 1 of a
2-point, 2-layer scan. -/
def resumeWitnessState : FwState :=
  { initState with
      paused := true
      paused_step := 1
      theta_steps_per_rev := 2
      z_travel_mm := 1
      z_steps_per_mm := 2
      z_steps_per_layer := 1
      steps_per_rev := 2 }

/-- Witness for the amended C1: resuming from recorded position (0,1) prints
SCAN_RESUMED, emits position (0,1) and does not re-emit the already-scanned
position (0,0). -/
theorem pause_resume_bookkeeping_amended_witness :
    (linesOf (processCommand constEnv .resume resumeWitnessState 0).2.2).head? =
      some OutLine.scanResumed ∧
    ((0 : Int), (1 : Int)) ∈ pointPositions
      (linesOf (processCommand constEnv .resume resumeWitnessState 0).2.2) ∧
    ¬ ((0 : Int), (0 : Int)) ∈ pointPositions
      (linesOf (processCommand constEnv .resume resumeWitnessState 0).2.2) := by
  have h := pause_resume_bookkeeping_amended constEnv resumeWitnessState 0 rfl
    (by decide) (by decide) (by decide) (by decide) (by decide)
  refine ⟨h.2.1, (h.2.2.2 0 1).mpr (by decide), fun hc => ?_⟩
  have h2 := (h.2.2.2 0 0).mp hc
  exact absurd h2 (by decide)

/-! ### Unconditional STOP and fresh-state RESUME -/

theorem resumeScan_events_shape (env : Env) (s : FwState) (k : Nat)
    (h0 : s.paused_layer = 0 ∧ s.paused_step = 0) :
    ∃ rest, (resumeScan env s k).2.2 =
      Ev.line OutLine.resumingMovingToTop :: (moveToTop s ++ rest) := by
  simp only [resumeScan]
  rw [if_pos h0]
  generalize (resumeLayerLoop env
    ((s.z_travel_mm * s.z_steps_per_mm).tdiv s.z_steps_per_layer)
    (s.steps_per_rev.tdiv s.theta_steps_per_rev)
    (s.steps_per_rev.tmod s.theta_steps_per_rev)
    s.paused_layer s.paused_step s k s.paused_layer) = L
  exact ⟨L.2.2 ++ (if L.1.scanning = true ∧ L.1.paused = false
    then returnToHome L.1 else []), by simp [List.append_assoc]⟩

theorem processResume_events_shape (env : Env) (s : FwState) (k : Nat)
    (hp : s.paused = true)
    (h0 : s.paused_layer = 0 ∧ s.paused_step = 0) :
    ∃ rest, (processCommand env .resume s k).2.2 =
      Ev.line OutLine.scanResumed :: Ev.line OutLine.resumingMovingToTop ::
        (moveToTop s ++ rest) := by
  obtain ⟨r, hr⟩ := resumeScan_events_shape env
    { s with paused := false, scanning := true } k ⟨h0.1, h0.2⟩
  have hmv : moveToTop { s with paused := false, scanning := true } =
      moveToTop s := rfl
  rw [hmv] at hr
  simp only [processCommand]
  rw [if_pos hp, hr]
  exact ⟨r ++ (if (resumeScan env
      { s with paused := false, scanning := true } k).1.paused = false
    then [Ev.line OutLine.scanComplete] else []), by simp [List.append_assoc]⟩

theorem getLast_cons_cons_append (x y : OutLine) (A : List OutLine) (c : OutLine) :
    (x :: (y :: (A ++ [c]))).getLast? = some c := by
  rw [show x :: (y :: (A ++ [c])) = (x :: y :: A) ++ [c] from by simp]
  exact List.getLast?_concat _

/-- The state of fresh firmware after one STOP command. -/
def stoppedInit : FwState := { initState with paused := true, scanning := false }

/-- C10. STOP is accepted unconditionally: it always sets `paused`, clears
`scanning` and prints SCAN_PAUSED, even with no scan in progress; on fresh
firmware a STOP followed by RESUME prints SCAN_RESUMED, moves to the top
position first, then runs a full scan from layer 0, step 0 (all 100 default
layers of 200 points each) and ends with SCAN_COMPLETE. -/
theorem stop_unconditional_resume_full_scan (env : Env) :
    (∀ (s : FwState) (k : Nat),
      processCommand env .stop s k =
        ({ s with paused := true, scanning := false }, k,
          [Ev.line .scanPaused])) ∧
    (∃ rest : List Ev,
      (runCommands env initState 0 [.stop, .resume]).2.2 =
        Ev.line .scanPaused :: Ev.line .scanResumed ::
          Ev.line .resumingMovingToTop :: (moveToTop initState ++ rest)) ∧
    (∀ l st : Int,
      (l, st) ∈ pointPositions (linesOf
        (runCommands env initState 0 [.stop, .resume]).2.2) ↔
        (0 ≤ l ∧ l < 100 ∧ 0 ≤ st ∧ st < 200)) ∧
    (linesOf (runCommands env initState 0 [.stop, .resume]).2.2).getLast? =
      some OutLine.scanComplete := by
  have hev : (runCommands env initState 0 [.stop, .resume]).2.2 =
      Ev.line OutLine.scanPaused ::
        ((processCommand env .resume stoppedInit 0).2.2 ++ []) := rfl
  obtain ⟨⟨d1s, d1p, d1T⟩, d2, d3, d4⟩ := processResume_run env stoppedInit 0 rfl
  have hlines : linesOf (runCommands env initState 0 [.stop, .resume]).2.2 =
      OutLine.scanPaused ::
        linesOf (processCommand env .resume stoppedInit 0).2.2 := by
    rw [hev, List.append_nil, linesOf_cons_line]
  refine ⟨fun s k => rfl, ?_, ?_, ?_⟩
  · obtain ⟨r, hr⟩ := processResume_events_shape env stoppedInit 0 rfl ⟨rfl, rfl⟩
    have hmv : moveToTop stoppedInit = moveToTop initState := rfl
    rw [hmv] at hr
    exact ⟨r, by rw [hev, List.append_nil, hr]⟩
  · intro l st
    have hpp : pointPositions (linesOf
        (runCommands env initState 0 [.stop, .resume]).2.2) =
        pointPositions (linesOf
          (processCommand env .resume stoppedInit 0).2.2) := by
      rw [hlines]
      simp [pointPositions, List.filterMap_cons]
    rw [hpp, pointPositions_processResume env stoppedInit 0 rfl]
    rw [mem_pointPositions_layerLines env _ _ _ _ _ _ 0 rfl l st]
    have hzl : (stoppedInit.z_travel_mm * stoppedInit.z_steps_per_mm).tdiv
        stoppedInit.z_steps_per_layer = 100 := by decide
    rw [hzl]
    have hT : stoppedInit.theta_steps_per_rev = 200 := rfl
    rw [hT]
    have hl0 : stoppedInit.paused_layer = 0 := rfl
    have hs0 : stoppedInit.paused_step = 0 := rfl
    rw [hl0, hs0]
    by_cases hls : l = (0 : Int)
    · rw [if_pos hls]
    · rw [if_neg hls]
  · rw [hlines, d2]
    exact getLast_cons_cons_append _ _ _ _

end LaserScanner
